import Mathlib

/-!
# File explorer shell: embedding of `src/FileExplorer/main.cpp`

The program is a class `FileExplorer` holding one `fs::path current_path` (the cursor) and a
`main` loop that reads a line, extracts whitespace-separated tokens and calls one method.

The embedding has three layers.

* `std::string` is a Lean `String` whose characters stand for the bytes of the C++ string,
  and `fs::path` is its native string together with the POSIX decomposition functions of
  the C++ standard (`is_absolute`, `operator/`, `parent_path`, `root_path`, comparison).
* The operating system is a `World`: a finite table from locations (lists of names below
  the root) to files and directories.  The library calls the program makes
  (`fs::exists`, `fs::canonical`, `fs::remove_all`, ...) are functions on the table.
  Standing assumptions of this layer: POSIX path syntax, no symbolic links, and a process
  that is permitted every operation (no access-denied failures).
* The regular-expression library is a parameter `RegexLib` of the program (constructor
  with flags, and `regex_search`).  The meaning of patterns is given for a part of the
  ECMAScript grammar, declaratively (`Matches`) and by a matcher proved equal to it.
* The methods of `FileExplorer` and the dispatch of `main` are functions on a `State`
  (cursor, world, text written to `std::cout`, and the mutating library calls issued).
-/

set_option autoImplicit false

namespace FileExplorer

/-! ## Paths -/

/-- The method `path::is_absolute` on POSIX: the pathname starts with the root directory. -/
def is_absolute (p : String) : Bool :=
  match p.data with
  | c :: _ => c == '/'
  | [] => false

/-- The method `path::has_filename`: the pathname is not empty and does not end with a
separator. -/
def has_filename (p : String) : Bool :=
  match p.data.reverse with
  | c :: _ => c != '/'
  | [] => false

/-- The `operator/` of `fs::path` on POSIX: an absolute right operand replaces the left one;
otherwise a separator is added when the left operand ends in a filename, and the right
operand is appended. -/
def pathAppend (lhs p : String) : String :=
  if is_absolute p then p
  else if has_filename lhs then lhs ++ "/" ++ p
  else lhs ++ p

/-- The fields of a pathname between separators, as character lists. -/
def splitSlash : List Char → List (List Char)
  | [] => [[]]
  | c :: cs =>
    if c = '/' then [] :: splitSlash cs
    else
      match splitSlash cs with
      | [] => [[c]]
      | hd :: tl => (c :: hd) :: tl

/-- The fields of a pathname between separators. -/
def components (p : String) : List String :=
  (splitSlash p.data).map String.mk

/-- Remove the empty fields at the end of a field list. -/
def dropTrailingEmpty (l : List String) : List String :=
  (l.reverse.dropWhile (fun c => c == "")).reverse

/-- The elements that iterating a `fs::path` yields after the root directory: the non-empty
fields, followed by one empty element when the pathname ends with a separator after a
filename. -/
def elems (p : String) : List String :=
  let fields := (components p).filter (fun c => c != "")
  if fields ≠ [] ∧ ¬ has_filename p then fields ++ [""] else fields

/-- The comparison `operator==` of `fs::path` on POSIX: same presence of a root directory
and the same elements. -/
def pathEq (a b : String) : Bool :=
  is_absolute a == is_absolute b && elems a == elems b

/-- The method `path::root_path` on POSIX. -/
def root_path (p : String) : String :=
  if is_absolute p then "/" else ""

/-- The method `path::has_relative_path`: something follows the root directory. -/
def has_relative_path (p : String) : Bool :=
  p.data.any (fun c => c != '/')

/-- The method `path::parent_path`: the pathname itself when nothing follows the root
directory, otherwise the longest prefix that yields one element fewer. -/
def parent_path (p : String) : String :=
  if has_relative_path p then
    let base := p.data.reverse.dropWhile (fun c => c != '/')
    let t := base.dropWhile (fun c => c == '/')
    if t = [] then (if base = [] then "" else "/") else String.mk t.reverse
  else p

/-- The method `path::has_parent_path`. -/
def has_parent_path (p : String) : Bool :=
  parent_path p != ""

/-- The method `path::filename`: the last element of the pathname. -/
def filename (p : String) : String :=
  String.mk (p.data.reverse.takeWhile (fun c => c != '/')).reverse

/-- The text `std::quoted` produces: the string between double quotes, with a backslash
before every double quote and backslash. -/
def quoted (s : String) : String :=
  String.mk ('"' :: s.data.foldr (fun c acc => if c = '"' ∨ c = '\\' then '\\' :: c :: acc else c :: acc) ['"'])

/-- Writing a `fs::path` to a stream prints its quoted native string. -/
def showPath (p : String) : String := quoted p

/-! ## The filesystem -/

/-- A filesystem object: a regular file with permission bits and contents, or a
directory with permission bits. -/
inductive Node where
  | file (perms : Nat) (bytes : List Nat)
  | dir (perms : Nat)
  deriving DecidableEq, Repr

/-- A location: the names leading from the root directory to an object. -/
abbrev Key := List String

/-- The state of the operating system the program talks to: the permission bits of the
root directory, the objects below the root, and the working directory of the process
(against which the library interprets relative pathnames; the program never changes it). -/
structure World where
  rootPerms : Nat
  entries : List (Key × Node)
  cwd : Key
  deriving DecidableEq, Repr

/-- The last name of a location: the file name of the object there. -/
def lastName (k : Key) : String :=
  k.getLast?.getD ""

/-- A proper file name: not empty, not `.` or `..`, and without a separator. -/
def validName (n : String) : Bool :=
  n != "" && n != "." && n != ".." && n.data.all (fun c => c != '/')

/-- Is `a` a leading segment of `b`. -/
def startsWith : Key → Key → Bool
  | [], _ => true
  | _ :: _, [] => false
  | x :: xs, y :: ys => x == y && startsWith xs ys

/-- Is `b` strictly below `a`. -/
def below (a b : Key) : Bool :=
  startsWith a b && a.length < b.length

namespace World

/-- The object at a location; the root is always a directory. -/
def lookup (w : World) (k : Key) : Option Node :=
  if k = [] then some (Node.dir w.rootPerms) else w.entries.lookup k

/-- Is there a directory at the location. -/
def isDir (w : World) (k : Key) : Bool :=
  match w.lookup k with
  | some (Node.dir _) => true
  | _ => false

/-- Follow the fields of a pathname from a starting location, the way the kernel resolves
a pathname: every field is looked up in a directory, empty fields and `.` stay, `..`
goes up (the root is its own parent). -/
def walk (w : World) : Key → List String → Option Key
  | cur, [] => some cur
  | cur, comp :: rest =>
    if w.isDir cur then
      if comp = "" ∨ comp = "." then walk w cur rest
      else if comp = ".." then walk w cur.dropLast rest
      else walk w (cur ++ [comp]) rest
    else none

/-- The location a pathname names, when it names an existing object. -/
def resolve (w : World) (p : String) : Option Key :=
  if p = "" then none
  else
    match walk w (if is_absolute p then [] else w.cwd) (components p) with
    | some k => if (w.lookup k).isSome then some k else none
    | none => none

/-- The directory a new object would be created in and the name it would get: the
pathname without the empty fields at its end, split before its last field. -/
def resolveParent (w : World) (p : String) : Option (Key × String) :=
  match (dropTrailingEmpty (components p)).reverse with
  | [] => none
  | last :: initRev =>
    match walk w (if is_absolute p then [] else w.cwd) initRev.reverse with
    | some k => if w.isDir k then some (k, last) else none
    | none => none

/-- The reason the kernel gives when following the fields of a pathname fails: a field
that should be a directory is a file, or an object is missing. -/
def walkError (w : World) : Key → List String → String
  | _, [] => "No such file or directory"
  | cur, comp :: rest =>
    if w.isDir cur then
      if comp = "" ∨ comp = "." then walkError w cur rest
      else if comp = ".." then walkError w cur.dropLast rest
      else walkError w (cur ++ [comp]) rest
    else if (w.lookup cur).isSome then "Not a directory"
    else "No such file or directory"

/-- The reason a pathname names no object, or cannot be created. -/
def whyMissing (w : World) (p : String) : String :=
  walkError w (if is_absolute p then [] else w.cwd) (dropTrailingEmpty (components p))

/-- The same world with other objects below the root. -/
def setEntries (w : World) (es : List (Key × Node)) : World :=
  { w with entries := es }

/-- The locations strictly below a location, in table order. -/
def descendants (w : World) (k : Key) : List (Key × Node) :=
  w.entries.filter (fun e => below k e.1)

/-- The objects directly inside a location, in table order. -/
def children (w : World) (k : Key) : List (Key × Node) :=
  w.entries.filter (fun e => startsWith k e.1 && e.1.length == k.length + 1)

/-- A table is well formed when no location occurs twice, every name is a proper file
name, and every object lies in a directory. -/
def wf (w : World) : Bool :=
  (w.entries.map Prod.fst).Nodup &&
  w.entries.all (fun e => e.1 != [] && e.1.all validName && w.isDir e.1.dropLast)

end World

/-- The characters of the names of a location, each after a separator. -/
def renderChars : Key → List Char
  | [] => []
  | n :: ns => '/' :: n.data ++ renderChars ns

/-- The canonical absolute pathname of a location. -/
def render (k : Key) : String :=
  if k = [] then "/" else String.mk (renderChars k)

/-! ## The library calls of `std::filesystem` and `std::ofstream`

A call that can throw returns the world it leaves behind together with either the text
of the exception (`what()`) or its result. -/

namespace fs

/-- Permission bits `fs::perms` (values fixed by the C++ standard). -/
def perms.none : Nat := 0
def perms.owner_read : Nat := 0o400
def perms.owner_write : Nat := 0o200
def perms.owner_exec : Nat := 0o100
def perms.group_read : Nat := 0o40
def perms.group_write : Nat := 0o20
def perms.group_exec : Nat := 0o10
def perms.others_read : Nat := 0o4
def perms.others_write : Nat := 0o2
def perms.others_exec : Nat := 0o1
def perms.mask : Nat := 0o7777
def perms.unknown : Nat := 0xFFFF

/-- Options `fs::perm_options`. -/
def perm_options.replace : Nat := 1
def perm_options.add : Nat := 2
def perm_options.remove : Nat := 4

/-- Options `fs::copy_options`. -/
def copy_options.none : Nat := 0
def copy_options.skip_existing : Nat := 1
def copy_options.overwrite_existing : Nat := 2
def copy_options.recursive : Nat := 8

/-- Permission bits a new file gets (mode 0666 under the usual umask 022). -/
def newFilePerms : Nat := 0o644

/-- Permission bits a new directory gets (mode 0777 under the usual umask 022). -/
def newDirPerms : Nat := 0o755

/-- The text of a `filesystem_error`. -/
def filesystem_error (what reason path : String) : String :=
  "filesystem error: " ++ what ++ ": " ++ reason ++ " [" ++ path ++ "]"

/-- The text of a `filesystem_error` that carries two pathnames. -/
def filesystem_error2 (what reason path1 path2 : String) : String :=
  "filesystem error: " ++ what ++ ": " ++ reason ++ " [" ++ path1 ++ "] [" ++ path2 ++ "]"

/-- The last field of a pathname that is not empty, if any. -/
def lastField (p : String) : Option String :=
  (dropTrailingEmpty (components p)).reverse.head?

/-- Does the pathname end in a field the kernel refuses to remove or rename (`.`, `..`). -/
def endsInDot (p : String) : Bool :=
  lastField p == some "." || lastField p == some ".."

/-- The call `fs::exists(p)`. -/
def path_exists (w : World) (p : String) : Bool :=
  (w.resolve p).isSome

/-- The call `fs::is_directory(p)`. -/
def is_directory (w : World) (p : String) : Bool :=
  match w.resolve p with
  | some k => w.isDir k
  | none => false

/-- The call `fs::is_regular_file(p)`. -/
def is_regular_file (w : World) (p : String) : Bool :=
  match w.resolve p with
  | some k => !w.isDir k
  | none => false

/-- The call `fs::file_size(p)`. -/
def file_size (w : World) (p : String) : Except String Nat :=
  match (w.resolve p).bind w.lookup with
  | some (Node.file _ bytes) => .ok bytes.length
  | some (Node.dir _) => .error (filesystem_error "cannot get file size" "Is a directory" p)
  | none => .error (filesystem_error "cannot get file size" "No such file or directory" p)

/-- The call `fs::canonical(p)`: the absolute pathname without `.`, `..` or repeated
separators of an existing object. -/
def canonical (w : World) (p : String) : Except String String :=
  match w.resolve p with
  | some k => .ok (render k)
  | none => .error (filesystem_error "cannot make canonical path" "No such file or directory" p)

/-- The call `fs::status(p).permissions()`. -/
def status_permissions (w : World) (p : String) : Nat :=
  match (w.resolve p).bind w.lookup with
  | some (Node.file m _) => m
  | some (Node.dir m) => m
  | none => perms.unknown

/-- The object with other permission bits. -/
def withPerms (m : Nat) : Node → Node
  | Node.file _ bytes => Node.file m bytes
  | Node.dir _ => Node.dir m

/-- Replace the permission bits of the object at a location. -/
def setPerms (w : World) (k : Key) (m : Nat) : World :=
  if k = [] then { w with rootPerms := m }
  else w.setEntries (w.entries.map (fun e => if e.1 = k then (e.1, withPerms m e.2) else e))

/-- The call `fs::permissions(p, prms, opts)`. -/
def permissions (w : World) (p : String) (prms opts : Nat) : World × Except String Unit :=
  match w.resolve p with
  | none => (w, .error (filesystem_error "cannot set permissions" "No such file or directory" p))
  | some k =>
    let old := status_permissions w p
    let bits := prms &&& perms.mask
    if opts &&& perm_options.replace ≠ 0 then (setPerms w k bits, .ok ())
    else if opts &&& perm_options.add ≠ 0 then (setPerms w k (old ||| bits), .ok ())
    else if opts &&& perm_options.remove ≠ 0 then (setPerms w k (old &&& (perms.mask ^^^ bits)), .ok ())
    else (w, .error (filesystem_error "cannot set permissions" "Invalid argument" p))

/-- The constructor `std::ofstream file(p)`: open for writing, creating or truncating the
file.  It never throws; the result says whether the stream is open. -/
def ofstream_open (w : World) (p : String) : World × Bool :=
  if has_filename p ∧ ¬ endsInDot p then
    match w.resolveParent p with
    | some (dir, name) =>
      match w.lookup (dir ++ [name]) with
      | none => (w.setEntries (w.entries ++ [(dir ++ [name], Node.file newFilePerms [])]), true)
      | some (Node.file m _) =>
        (w.setEntries (w.entries.map (fun e => if e.1 = dir ++ [name] then (e.1, Node.file m []) else e)), true)
      | some (Node.dir _) => (w, false)
    | none => (w, false)
  else (w, false)

/-- The call `fs::create_directory(p)`: true when a directory was created, false when one
was already there. -/
def create_directory (w : World) (p : String) : World × Except String Bool :=
  match w.resolve p with
  | some k =>
    if w.isDir k then (w, .ok false)
    else (w, .error (filesystem_error "cannot create directory" "File exists" p))
  | none =>
    match w.resolveParent p with
    | some (dir, name) =>
      (w.setEntries (w.entries ++ [(dir ++ [name], Node.dir newDirPerms)]), .ok true)
    | none => (w, .error (filesystem_error "cannot create directory" (w.whyMissing p) p))

/-- The call `fs::remove(p)`: delete a file or an empty directory. -/
def remove (w : World) (p : String) : World × Except String Bool :=
  match w.resolve p with
  | none => (w, .ok false)
  | some k =>
    if w.isDir k ∧ (k = [] ∨ endsInDot p) then
      (w, .error (filesystem_error "cannot remove" "Invalid argument" p))
    else if w.isDir k ∧ w.descendants k ≠ [] then
      (w, .error (filesystem_error "cannot remove" "Directory not empty" p))
    else (w.setEntries (w.entries.filter (fun e => e.1 != k)), .ok true)

/-- The call `fs::remove_all(p)`: delete everything inside a directory, then remove the
object itself; the result is the number of objects deleted.  For the root and for a
pathname ending in `.` the final removal is refused and the call throws, with the
contents gone.  A pathname ending in `..` reaches the directory through one of its own
subdirectories, which is gone by then, so the final removal finds nothing: the
directory stays and only its contents are counted. -/
def remove_all (w : World) (p : String) : World × Except String Nat :=
  match w.resolve p with
  | none => (w, .ok 0)
  | some k =>
    if w.isDir k then
      let emptied := w.setEntries (w.entries.filter (fun e => !below k e.1))
      if k = [] then
        (emptied, .error (filesystem_error "cannot remove" "Device or resource busy" p))
      else if lastField p = some "." then
        (emptied, .error (filesystem_error "cannot remove" "Invalid argument" p))
      else if lastField p = some ".." then
        (emptied, .ok (w.descendants k).length)
      else
        (emptied.setEntries (emptied.entries.filter (fun e => e.1 != k)),
          .ok ((w.descendants k).length + 1))
    else (w.setEntries (w.entries.filter (fun e => e.1 != k)), .ok 1)

/-- Put an object at a location, replacing the object that is there. -/
def put (w : World) (k : Key) (n : Node) : World :=
  if (w.entries.lookup k).isSome then
    w.setEntries (w.entries.map (fun e => if e.1 = k then (k, n) else e))
  else w.setEntries (w.entries ++ [(k, n)])

/-- The largest length of a pathname the kernel accepts, its terminator included. -/
def PATH_MAX : Nat := 4096

/-- The location the destination of a rename stands for: the existing object, or the new
name in an existing directory. -/
def destination (w : World) (dst : String) : Option Key :=
  match w.resolve dst with
  | some k => some k
  | none => (w.resolveParent dst).map (fun r => r.1 ++ [r.2])

/-- The function `copy_file` of the library for a regular file `n`: write it at the
pathname `target`.  An existing regular file there is replaced with
`overwrite_existing`, kept with `skip_existing`, and an error otherwise. -/
def copy_file (opts : Nat) (w : World) (n : Node) (target : String) : Except String World :=
  if PATH_MAX ≤ target.length then .error "File name too long"
  else
    match w.resolve target with
    | some kt =>
      if w.isDir kt then .error "Is a directory"
      else if opts &&& copy_options.overwrite_existing ≠ 0 then .ok (put w kt n)
      else if opts &&& copy_options.skip_existing ≠ 0 then .ok w
      else .error "File exists"
    | none =>
      match (if has_filename target ∧ ¬ endsInDot target then w.resolveParent target else none) with
      | some (dir, name) => .ok (put w (dir ++ [name]) n)
      | none => .error (if has_filename target then w.whyMissing target else "Is a directory")

/-- The recursion of `fs::copy`, with the reason of the first failure, if any.  A regular
file is copied to the destination, or into it when the destination is a directory.  A
directory is copied when `recursive` is set or no option is set: the destination
directory is created if it is missing, then every object found in the source directory
is copied to the same name in the destination, with the same options (without
options, directories found there are left out).  The objects are those present once
the destination directory exists, in table order, so a directory copied into itself
is copied again and again until a pathname is too long. -/
def copyRec : Nat → Nat → World → String → String → World × Option String
  | 0, _, w, _, _ => (w, some "File name too long")
  | fuel + 1, opts, w, src, dst =>
    if PATH_MAX ≤ src.length ∨ PATH_MAX ≤ dst.length then (w, some "File name too long")
    else
      match w.resolve src with
      | none => (w, some (w.whyMissing src))
      | some kf =>
        match w.lookup kf with
        | some (Node.file m bytes) =>
          if w.resolve dst = some kf then (w, some "File exists")
          else
            match copy_file opts w (Node.file m bytes)
                (if is_directory w dst then pathAppend dst (filename src) else dst) with
            | .ok w1 => (w1, none)
            | .error reason => (w, some reason)
        | some (Node.dir m) =>
          if w.resolve dst = some kf then (w, some "File exists")
          else if path_exists w dst ∧ ¬ is_directory w dst then (w, some "Is a directory")
          else if opts ≠ copy_options.none ∧ opts &&& copy_options.recursive = 0 then (w, none)
          else
            match (if path_exists w dst then some w
                   else (w.resolveParent dst).map (fun r => put w (r.1 ++ [r.2]) (Node.dir m))) with
            | none => (w, some (w.whyMissing dst))
            | some w1 =>
              (w1.children kf).foldl
                (fun acc e =>
                  match acc with
                  | (w2, none) =>
                    copyRec fuel (if opts = copy_options.none then 4096 else opts) w2
                      (pathAppend src (lastName e.1)) (pathAppend dst (lastName e.1))
                  | failed => failed)
                (w1, none)
        | none => (w, some "No such file or directory")

/-- The call `fs::copy(src, dst, opts)`. -/
def copy (w : World) (src dst : String) (opts : Nat) : World × Except String Unit :=
  match copyRec (PATH_MAX + 1) opts w src dst with
  | (w1, none) => (w1, .ok ())
  | (w1, some reason) => (w1, .error (filesystem_error2 "cannot copy" reason src dst))

/-- The call `fs::rename(src, dst)`: the object and everything below it move to the
destination; an existing file, or an existing empty directory, at the destination is
replaced by an object of the same kind. -/
def rename (w : World) (src dst : String) : World × Except String Unit :=
  match w.resolve src, destination w dst with
  | none, _ => (w, .error (filesystem_error2 "cannot rename" (w.whyMissing src) src dst))
  | some _, none => (w, .error (filesystem_error2 "cannot rename" (w.whyMissing dst) src dst))
  | some ks, some kt =>
    if ks = [] ∨ kt = [] ∨ endsInDot src ∨ endsInDot dst then
      (w, .error (filesystem_error2 "cannot rename" "Device or resource busy" src dst))
    else if ks = kt then (w, .ok ())
    else if startsWith ks kt then
      (w, .error (filesystem_error2 "cannot rename" "Invalid argument" src dst))
    else if ¬ w.isDir ks ∧ ¬ has_filename dst then
      (w, .error (filesystem_error2 "cannot rename" "Not a directory" src dst))
    else if (w.lookup kt).isSome ∧ w.isDir ks ∧ ¬ w.isDir kt then
      (w, .error (filesystem_error2 "cannot rename" "Not a directory" src dst))
    else if (w.lookup kt).isSome ∧ ¬ w.isDir ks ∧ w.isDir kt then
      (w, .error (filesystem_error2 "cannot rename" "Is a directory" src dst))
    else if (w.lookup kt).isSome ∧ w.descendants kt ≠ [] then
      (w, .error (filesystem_error2 "cannot rename" "Directory not empty" src dst))
    else
      (w.setEntries ((w.entries.filter (fun e => e.1 != kt)).map (fun e =>
        if startsWith ks e.1 then (kt ++ e.1.drop ks.length, e.2) else e)), .ok ())

/-- What an iterator yields for one object: its pathname and the object. -/
structure directory_entry where
  path : String
  node : Node
  deriving DecidableEq, Repr

/-- The method `directory_entry::is_directory`. -/
def directory_entry.is_directory (e : directory_entry) : Bool :=
  match e.node with
  | Node.dir _ => true
  | Node.file _ _ => false

/-- The method `directory_entry::is_regular_file`. -/
def directory_entry.is_regular_file (e : directory_entry) : Bool :=
  !e.is_directory

/-- The call `fs::file_size(entry)`. -/
def directory_entry.file_size (e : directory_entry) : Nat :=
  match e.node with
  | Node.dir _ => 0
  | Node.file _ bytes => bytes.length

/-- The pathname an iterator started at `p` gives the object `names` below it. -/
def entryPath (p : String) (names : List String) : String :=
  names.foldl pathAppend p

/-- The range `fs::directory_iterator(p)`: the objects directly inside the directory, in
the order of the table (the library leaves the order open). -/
def directory_iterator (w : World) (p : String) : Except String (List directory_entry) :=
  match w.resolve p with
  | some k =>
    if w.isDir k then
      .ok ((w.children k).map (fun e => ⟨entryPath p (e.1.drop k.length), e.2⟩))
    else .error (filesystem_error "directory iterator cannot open directory" "Not a directory" p)
  | none =>
    .error (filesystem_error "directory iterator cannot open directory" "No such file or directory" p)

/-- The range `fs::recursive_directory_iterator(p, skip_permission_denied)`: every object
below the directory.  The library leaves the order of the objects open; here it is the
order of the table. -/
def recursive_directory_iterator (w : World) (p : String) :
    Except String (List directory_entry) :=
  match w.resolve p with
  | some k =>
    if w.isDir k then
      .ok ((w.descendants k).map (fun e => ⟨entryPath p (e.1.drop k.length), e.2⟩))
    else
      .error (filesystem_error "recursive directory iterator cannot open directory" "Not a directory" p)
  | none =>
    .error (filesystem_error "recursive directory iterator cannot open directory"
      "No such file or directory" p)

end fs

/-! ## Text formatting -/

/-- The string `std::string(n, '-')`. -/
def dashes (n : Nat) : String :=
  String.mk (List.replicate n '-')

/-- Output of a string under `std::left << std::setw(n)`: padded with blanks on the right
up to `n` characters. -/
def setw (n : Nat) (text : String) : String :=
  text ++ String.mk (List.replicate (n - text.length) ' ')

/-- A 32-bit `int` value as the number its bit pattern denotes. -/
def bits32 (v : Int) : Nat :=
  (v % 2 ^ 32).toNat

/-- The 32-bit `int` with a given mathematical value, wrapped into range. -/
def wrapInt (v : Int) : Int :=
  (v + 2 ^ 31) % 2 ^ 32 - 2 ^ 31

/-- The `int` expression `c - '0'` for a character of a `std::string`.  (Where `char` is
signed, a byte above 127 gives a value lower by 256; its bit pattern has the same bits
1, 2 and 4, which are all the program looks at.) -/
def charMinusZero (c : Char) : Int :=
  (c.toNat : Int) - ('0'.toNat : Int)

/-- The test `if (val & bit)` on an `int`. -/
def hasBit (val : Int) (bit : Nat) : Bool :=
  bits32 val &&& bit != 0

/-- Flags `std::regex_constants::syntax_option_type`. -/
def regex_constants.icase : Nat := 1

/-- The regular-expression library, as far as the program uses it: the type of a compiled
expression, the constructor `std::regex(pattern, flags)`, which either throws (the text
of the exception) or gives the compiled expression, and `std::regex_search(text, re)`. -/
structure RegexLib where
  regex : Type
  basic_regex : String → Nat → Except String regex
  regex_search : String → regex → Bool

/-! ## The class `FileExplorer` -/

/-- A mutating library call issued by the program, with its arguments. -/
inductive FsCall where
  | ofstream (p : String)
  | create_directory (p : String)
  | copy (src dst : String) (opts : Nat)
  | rename (src dst : String)
  | remove_all (p : String)
  | remove (p : String)
  | permissions (p : String) (prms opts : Nat)
  deriving DecidableEq, Repr

/-- The state of a run: the member `current_path`, the operating system, the pieces of
text written to `std::cout` (one per output statement, oldest first) and the mutating
library calls issued (oldest first). -/
structure State where
  current_path : String
  world : World
  out : List String
  calls : List FsCall
  deriving DecidableEq, Repr

/-- One output statement. -/
def State.print (s : State) (text : String) : State :=
  { s with out := s.out ++ [text] }

/-- Record a library call and the world it leaves behind. -/
def State.issue (s : State) (c : FsCall) (w : World) : State :=
  { s with world := w, calls := s.calls ++ [c] }

/-- One line of the listing printed by `listFiles`. -/
def listLine (entry : fs.directory_entry) : String :=
  let name := filename entry.path
  let type := if entry.is_directory then "FOLDER" else "FILE"
  let size_str := if entry.is_regular_file then toString entry.file_size ++ " B" else "-"
  setw 40 name ++ setw 15 type ++ setw 15 size_str ++ "\n"

/-- The method `FileExplorer::listFiles`. -/
def listFiles (s : State) : State :=
  let s := s.print ("\n=== Contents of: " ++ showPath s.current_path ++ " ===\n")
  let s := s.print (dashes 80 ++ "\n")
  let s := s.print (setw 40 "NAME" ++ setw 15 "TYPE" ++ setw 15 "SIZE\n")
  let s := s.print (dashes 80 ++ "\n")
  if ¬ fs.path_exists s.world s.current_path then
    s.print "Error: Path does not exist\n"
  else
    match fs.directory_iterator s.world s.current_path with
    | .ok entries =>
      (entries.foldl (fun acc entry => acc.print (listLine entry)) s).print (dashes 80 ++ "\n")
    | .error what => s.print ("Error listing files: " ++ what ++ "\n")

/-- The local `new_path` of `changeDirectory`: the argument itself when it is absolute,
otherwise the cursor joined with it. -/
def new_path (current_path path : String) : String :=
  if is_absolute path then path else pathAppend current_path path

/-- The method `FileExplorer::changeDirectory`. -/
def changeDirectory (s : State) (path : String) : State :=
  if ¬ fs.path_exists s.world (new_path s.current_path path) then
    s.print ("Error: Directory '" ++ path ++ "' not found\n")
  else if ¬ fs.is_directory s.world (new_path s.current_path path) then
    s.print ("Error: '" ++ path ++ "' is not a directory\n")
  else
    match fs.canonical s.world (new_path s.current_path path) with
    | .ok c => ({ s with current_path := c }).print ("Changed to: " ++ showPath c ++ "\n")
    | .error what => s.print ("Error changing directory: " ++ what ++ "\n")

/-- The method `FileExplorer::goParent`. -/
def goParent (s : State) : State :=
  if has_parent_path s.current_path ∧ ¬ pathEq s.current_path (root_path s.current_path) then
    ({ s with current_path := parent_path s.current_path }).print
      ("Changed to: " ++ showPath (parent_path s.current_path) ++ "\n")
  else s.print "Already at root directory\n"

/-- The method `FileExplorer::printWorkingDirectory`. -/
def printWorkingDirectory (s : State) : State :=
  s.print (showPath s.current_path ++ "\n")

/-- The method `FileExplorer::createFile`. -/
def createFile (s : State) (filename : String) : State :=
  let file_path := pathAppend s.current_path filename
  if fs.path_exists s.world file_path then
    s.print ("Error: File '" ++ filename ++ "' already exists\n")
  else
    (s.issue (FsCall.ofstream file_path) (fs.ofstream_open s.world file_path).1).print
      ("File created: " ++ showPath file_path ++ "\n")

/-- The method `FileExplorer::createDirectory`. -/
def createDirectory (s : State) (dirname : String) : State :=
  let dir_path := pathAppend s.current_path dirname
  if fs.path_exists s.world dir_path then
    s.print ("Error: Directory '" ++ dirname ++ "' already exists\n")
  else
    match fs.create_directory s.world dir_path with
    | (w, .ok true) =>
      (s.issue (FsCall.create_directory dir_path) w).print
        ("Directory created: " ++ showPath dir_path ++ "\n")
    | (w, .ok false) =>
      (s.issue (FsCall.create_directory dir_path) w).print "Failed to create directory\n"
    | (w, .error what) =>
      (s.issue (FsCall.create_directory dir_path) w).print
        ("Error creating directory: " ++ what ++ "\n")

/-- The method `FileExplorer::copyFile`. -/
def copyFile (s : State) (source destination : String) : State :=
  let src := pathAppend s.current_path source
  let dst := pathAppend s.current_path destination
  if ¬ fs.path_exists s.world src then
    s.print ("Error: Source '" ++ source ++ "' not found\n")
  else if fs.path_exists s.world dst then
    s.print ("Error: Destination '" ++ destination ++ "' already exists\n")
  else
    let opts := fs.copy_options.recursive ||| fs.copy_options.overwrite_existing
    match fs.copy s.world src dst opts with
    | (w, .ok ()) =>
      (s.issue (FsCall.copy src dst opts) w).print
        ("Copied: " ++ showPath src ++ " -> " ++ showPath dst ++ "\n")
    | (w, .error what) =>
      (s.issue (FsCall.copy src dst opts) w).print ("Error copying: " ++ what ++ "\n")

/-- The method `FileExplorer::moveFile`. -/
def moveFile (s : State) (source destination : String) : State :=
  let src := pathAppend s.current_path source
  let dst := pathAppend s.current_path destination
  if ¬ fs.path_exists s.world src then
    s.print ("Error: Source '" ++ source ++ "' not found\n")
  else if fs.path_exists s.world dst then
    s.print ("Error: Destination '" ++ destination ++ "' already exists\n")
  else
    match fs.rename s.world src dst with
    | (w, .ok ()) =>
      (s.issue (FsCall.rename src dst) w).print
        ("Moved: " ++ showPath src ++ " -> " ++ showPath dst ++ "\n")
    | (w, .error what) =>
      (s.issue (FsCall.rename src dst) w).print ("Error moving: " ++ what ++ "\n")

/-- The method `FileExplorer::deleteFile`. -/
def deleteFile (s : State) (path : String) : State :=
  let file_path := pathAppend s.current_path path
  if ¬ fs.path_exists s.world file_path then
    s.print ("Error: '" ++ path ++ "' not found\n")
  else if fs.is_directory s.world file_path then
    match fs.remove_all s.world file_path with
    | (w, .ok count) =>
      (s.issue (FsCall.remove_all file_path) w).print
        ("Directory deleted: " ++ showPath file_path ++ " (" ++ toString count ++ " items removed)\n")
    | (w, .error what) =>
      (s.issue (FsCall.remove_all file_path) w).print ("Error deleting: " ++ what ++ "\n")
  else
    match fs.remove s.world file_path with
    | (w, .ok _) =>
      (s.issue (FsCall.remove file_path) w).print ("File deleted: " ++ showPath file_path ++ "\n")
    | (w, .error what) =>
      (s.issue (FsCall.remove file_path) w).print ("Error deleting: " ++ what ++ "\n")

/-- The body of the loop of `findFiles` for one entry: the running state and the `int`
counter `match_count`. -/
def findStep (search : String → Bool) (acc : State × Int) (entry : fs.directory_entry) :
    State × Int :=
  if search (filename entry.path) then
    (acc.1.print (showPath entry.path ++ "\n"), wrapInt (acc.2 + 1))
  else acc

/-- The method `FileExplorer::findFiles` (its parameter `max_depth` is unused). -/
def findFiles (lib : RegexLib) (s : State) (pattern : String) : State :=
  let s := s.print ("\n=== Search results for pattern: '" ++ pattern ++ "' ===\n")
  let s := s.print (dashes 80 ++ "\n")
  match lib.basic_regex pattern regex_constants.icase with
  | .error what => s.print ("Error during search: " ++ what ++ "\n")
  | .ok regex_pattern =>
    let r : State × Int :=
      match fs.recursive_directory_iterator s.world s.current_path with
      | .ok entries =>
        entries.foldl (findStep (fun filename => lib.regex_search filename regex_pattern)) (s, 0)
      | .error what => (s.print ("Warning: " ++ what ++ "\n"), 0)
    (r.1.print (dashes 80 ++ "\n")).print ("Found: " ++ toString r.2 ++ " match(es)\n\n")

/-- One character of the display of `showPermissions`: the letter when the bit is set. -/
def permChar (perms bit : Nat) (letter : String) : String :=
  if perms &&& bit != fs.perms.none then letter else "-"

/-- The method `FileExplorer::showPermissions`. -/
def showPermissions (s : State) (path : String) : State :=
  let file_path := pathAppend s.current_path path
  if ¬ fs.path_exists s.world file_path then
    s.print ("Error: '" ++ path ++ "' not found\n")
  else
    let perms := fs.status_permissions s.world file_path
    let s := s.print ("\nPermissions for: " ++ showPath file_path ++ "\n")
    let s := s.print (dashes 50 ++ "\n")
    let s := s.print "Owner (User): "
    let s := s.print (permChar perms fs.perms.owner_read "r")
    let s := s.print (permChar perms fs.perms.owner_write "w")
    let s := s.print (permChar perms fs.perms.owner_exec "x" ++ "\n")
    let s := s.print "Group:        "
    let s := s.print (permChar perms fs.perms.group_read "r")
    let s := s.print (permChar perms fs.perms.group_write "w")
    let s := s.print (permChar perms fs.perms.group_exec "x" ++ "\n")
    let s := s.print "Other:        "
    let s := s.print (permChar perms fs.perms.others_read "r")
    let s := s.print (permChar perms fs.perms.others_write "w")
    let s := s.print (permChar perms fs.perms.others_exec "x" ++ "\n")
    let s := s.print (dashes 50 ++ "\n")
    let s := if fs.is_directory s.world file_path then s.print "Type: Directory\n"
      else s.print "Type: File\n"
    s.print "\n"

/-- The value `new_perms` that `changePermissions` builds from the three characters of
the permission string. -/
def new_perms (c0 c1 c2 : Char) : Nat :=
  let owner_val := charMinusZero c0
  let owner_perms := fs.perms.none
  let owner_perms := if hasBit owner_val 4 then owner_perms ||| fs.perms.owner_read else owner_perms
  let owner_perms := if hasBit owner_val 2 then owner_perms ||| fs.perms.owner_write else owner_perms
  let owner_perms := if hasBit owner_val 1 then owner_perms ||| fs.perms.owner_exec else owner_perms
  let group_val := charMinusZero c1
  let group_perms := fs.perms.none
  let group_perms := if hasBit group_val 4 then group_perms ||| fs.perms.group_read else group_perms
  let group_perms := if hasBit group_val 2 then group_perms ||| fs.perms.group_write else group_perms
  let group_perms := if hasBit group_val 1 then group_perms ||| fs.perms.group_exec else group_perms
  let other_val := charMinusZero c2
  let other_perms := fs.perms.none
  let other_perms := if hasBit other_val 4 then other_perms ||| fs.perms.others_read else other_perms
  let other_perms := if hasBit other_val 2 then other_perms ||| fs.perms.others_write else other_perms
  let other_perms := if hasBit other_val 1 then other_perms ||| fs.perms.others_exec else other_perms
  owner_perms ||| group_perms ||| other_perms

/-- The method `FileExplorer::changePermissions`. -/
def changePermissions (s : State) (path perms_str : String) : State :=
  let file_path := pathAppend s.current_path path
  if ¬ fs.path_exists s.world file_path then
    s.print ("Error: '" ++ path ++ "' not found\n")
  else
    match perms_str.data with
    | [c0, c1, c2] =>
      let call := FsCall.permissions file_path (new_perms c0 c1 c2) fs.perm_options.replace
      match fs.permissions s.world file_path (new_perms c0 c1 c2) fs.perm_options.replace with
      | (w, .ok ()) =>
        ((s.issue call w).print ("Permissions changed to: " ++ perms_str ++ "\n")).print
          "Command completed successfully!\n\n"
      | (w, .error what) =>
        (((s.issue call w).print ("Warning: " ++ what ++ "\n")).print
          "Note: Windows uses ACLs instead of Unix permissions.\n").print
          ("Permissions changed to: " ++ perms_str ++ " (conceptually)\n\n")
    | _ => s.print "Error: Use 3-digit format (e.g., 755)\n"

/-- The text written by `showHelp`, one piece per output statement. -/
def helpText : List String :=
  ["\n=== FILE EXPLORER COMMANDS (Days 1-5) ===\n\n",
   "Navigation:\n",
   "  ls              - List files in current directory\n",
   "  cd <dir>        - Change to directory\n",
   "  cd ..           - Go to parent directory\n",
   "  pwd             - Print working directory\n\n",
   "File/Directory Operations:\n",
   "  touch <file>    - Create empty file\n",
   "  mkdir <dir>     - Create directory\n",
   "  cp <src> <dst>  - Copy file or directory\n",
   "  mv <src> <dst>  - Move or rename file\n",
   "  rm <path>       - Delete file or directory\n\n",
   "Search:\n",
   "  find <pattern>  - Search files (regex pattern, case-insensitive)\n\n",
   "Permissions:\n",
   "  stat <file>     - Show file permissions\n",
   "  chmod <file> <perms> - Change permissions (3-digit octal)\n",
   "  Example: chmod file.txt 755\n",
   "  Example: chmod file.txt 644\n\n",
   "Other:\n",
   "  help            - Show this help menu\n",
   "  exit            - Exit the program\n\n"]

/-- The method `FileExplorer::showHelp`. -/
def showHelp (s : State) : State :=
  { s with out := s.out ++ helpText }

/-! ## The function `main` -/

/-- The C function `isspace` in the default locale. -/
def isspace (c : Char) : Bool :=
  c == ' ' || c == '\t' || c == '\n' || c == '\x0b' || c == '\x0c' || c == '\r'

/-- The extraction `iss >> word` on the unread characters of the stream: skip white space,
then read up to the next white space.  It fails when nothing but white space is left. -/
def extract (unread : List Char) : Option (String × List Char) :=
  match unread.dropWhile isspace with
  | [] => none
  | c :: cs =>
    some (String.mk (c :: cs.takeWhile (fun x => !isspace x)), cs.dropWhile (fun x => !isspace x))

/-- What one pass of the loop of `main` does with its input line. -/
inductive Action where
  | skip
  | exit
  | showHelp
  | listFiles
  | printWorkingDirectory
  | goParent
  | changeDirectory (path : String)
  | createFile (filename : String)
  | createDirectory (dirname : String)
  | copyFile (src dst : String)
  | moveFile (src dst : String)
  | deleteFile (path : String)
  | findFiles (pattern : String)
  | showPermissions (path : String)
  | changePermissions (path perms : String)
  | usage (text : List String)
  | unknown (command : String)
  deriving DecidableEq, Repr

/-- Extraction of two words, `iss >> a >> b`. -/
def extract2 (unread : List Char) : Option (String × String) :=
  match extract unread with
  | some (a, rest) =>
    match extract rest with
    | some (b, _) => some (a, b)
    | none => none
  | none => none

/-- The chain of comparisons in the loop of `main`: the action chosen for a command word
and the characters that follow it. -/
def choose (command : String) (rest : List Char) : Action :=
  if command = "exit" ∨ command = "quit" then .exit
  else if command = "help" then .showHelp
  else if command = "ls" then .listFiles
  else if command = "pwd" then .printWorkingDirectory
  else if command = "cd" then
    match extract rest with
    | some (path, _) => if path = ".." then .goParent else .changeDirectory path
    | none => .usage ["Usage: cd <directory>\n"]
  else if command = "touch" then
    match extract rest with
    | some (filename, _) => .createFile filename
    | none => .usage ["Usage: touch <filename>\n"]
  else if command = "mkdir" then
    match extract rest with
    | some (dirname, _) => .createDirectory dirname
    | none => .usage ["Usage: mkdir <dirname>\n"]
  else if command = "cp" then
    match extract2 rest with
    | some (src, dst) => .copyFile src dst
    | none => .usage ["Usage: cp <source> <destination>\n"]
  else if command = "mv" then
    match extract2 rest with
    | some (src, dst) => .moveFile src dst
    | none => .usage ["Usage: mv <source> <destination>\n"]
  else if command = "rm" then
    match extract rest with
    | some (path, _) => .deleteFile path
    | none => .usage ["Usage: rm <path>\n"]
  else if command = "find" then
    match extract rest with
    | some (pattern, _) => .findFiles pattern
    | none => .usage ["Usage: find <pattern>\n", "Example: find \\.txt\n", "Example: find test\n"]
  else if command = "stat" then
    match extract rest with
    | some (path, _) => .showPermissions path
    | none => .usage ["Usage: stat <file>\n"]
  else if command = "chmod" then
    match extract2 rest with
    | some (path, perms) => .changePermissions path perms
    | none =>
      .usage ["Usage: chmod <file> <permissions>\n", "Example: chmod file.txt 755\n",
        "Example: chmod file.txt 644\n"]
  else .unknown command

/-- The action for an input line: an empty line is skipped; otherwise the first word is
extracted (it stays empty when the line is all white space) and compared. -/
def route (input : String) : Action :=
  if input = "" then .skip
  else
    match extract input.data with
    | some (command, rest) => choose command rest
    | none => choose "" []

/-- Carry out an action on the state. -/
def perform (regex : RegexLib) (s : State) : Action → State
  | .skip => s
  | .exit => s.print "Goodbye!\n"
  | .showHelp => showHelp s
  | .listFiles => listFiles s
  | .printWorkingDirectory => printWorkingDirectory s
  | .goParent => goParent s
  | .changeDirectory path => changeDirectory s path
  | .createFile filename => createFile s filename
  | .createDirectory dirname => createDirectory s dirname
  | .copyFile src dst => copyFile s src dst
  | .moveFile src dst => moveFile s src dst
  | .deleteFile path => deleteFile s path
  | .findFiles pattern => findFiles regex s pattern
  | .showPermissions path => showPermissions s path
  | .changePermissions path perms => changePermissions s path perms
  | .usage text => { s with out := s.out ++ text }
  | .unknown command =>
    s.print ("Unknown command: '" ++ command ++ "'. Type 'help' for available commands.\n")

/-- One pass of the loop of `main` after the prompt: read the line and act on it. -/
def dispatch (regex : RegexLib) (s : State) (input : String) : State :=
  perform regex s (route input)

/-- The loop of `main` on the lines that standard input delivers: prompt, dispatch, and
stop after `exit` or `quit`. -/
def mainLoop (regex : RegexLib) (s : State) : List String → State
  | [] => s
  | input :: more =>
    let s1 := dispatch regex (s.print "explorer> ") input
    if route input = Action.exit then s1 else mainLoop regex s1 more

/-- The state in which the loop of `main` starts: the cursor is the working directory of
the process, and the banner and the help text have been printed. -/
def initial (w : World) : State :=
  showHelp
    { current_path := render w.cwd, world := w,
      out := ["=== Linux File Explorer (Days 1-5) ===\n", "Type 'help' for commands\n\n"],
      calls := [] }

/-- The words of a line: what successive extractions deliver until one fails. -/
def tokensFuel : Nat → List Char → List String
  | 0, _ => []
  | n + 1, unread =>
    match extract unread with
    | some (word, rest) => word :: tokensFuel n rest
    | none => []

/-- The white-space separated words of an input line. -/
def tokens (input : String) : List String :=
  tokensFuel input.data.length input.data

/-! ## Regular expressions: the ECMAScript grammar of `std::regex`

The part of the grammar modelled here: ordinary characters, `.`, the escapes `\d \D \w \W
\s \S \f \n \r \t \v` and a backslash before any character that is not a letter or
digit, bracket expressions of characters, ranges and those escapes (with `^` for
negation), groups `( )` and `(?: )`, alternation, the quantifiers `*`, `+`, `?` (also
in their lazy forms) and the assertions `^` and `$`.  Every other pattern
(back-references, look-ahead, `\b`, counted repetition, named classes, numeric
escapes, and the corner cases of `-`, `]` and `}`) is outside the model: `parsePattern`
gives no expression for it and nothing is stated about it. -/

/-- The function `tolower` of the default locale. -/
def tolower (c : Char) : Char :=
  if 'A' ≤ c ∧ c ≤ 'Z' then Char.ofNat (c.toNat + 32) else c

/-- The function `toupper` of the default locale. -/
def toupper (c : Char) : Char :=
  if 'a' ≤ c ∧ c ≤ 'z' then Char.ofNat (c.toNat - 32) else c

/-- One member of a bracket expression. -/
inductive ClassItem where
  | single (c : Char)
  | range (lo hi : Char)
  | digit
  | notDigit
  | word
  | notWord
  | space
  | notSpace
  deriving DecidableEq, Repr

/-- A part of a pattern that matches one character. -/
inductive Atom where
  | char (c : Char)
  | any
  | bracket (negated : Bool) (items : List ClassItem)
  deriving DecidableEq, Repr

/-- A pattern of the modelled grammar. -/
inductive Rx where
  | empty
  | atom (a : Atom)
  | bol
  | eol
  | seq (r1 r2 : Rx)
  | alt (r1 r2 : Rx)
  | star (r : Rx)
  deriving DecidableEq, Repr

/-- The class `\d` in the default locale. -/
def isDigitChar (c : Char) : Bool :=
  decide ('0' ≤ c ∧ c ≤ '9')

/-- The class `\w` in the default locale: letters, digits and the underscore. -/
def isWordChar (c : Char) : Bool :=
  decide ('a' ≤ c ∧ c ≤ 'z') || decide ('A' ≤ c ∧ c ≤ 'Z') || isDigitChar c || c == '_'

/-- Does a member of a bracket expression accept a character.  With `icase` a single
character is compared after `tolower`, and a range accepts a character whose lower-case
or upper-case form lies in it. -/
def ClassItem.accepts (icase : Bool) : ClassItem → Char → Bool
  | .single d, c => if icase then tolower c == tolower d else c == d
  | .range lo hi, c =>
    if icase then
      decide (lo ≤ tolower c ∧ tolower c ≤ hi) || decide (lo ≤ toupper c ∧ toupper c ≤ hi)
    else decide (lo ≤ c ∧ c ≤ hi)
  | .digit, c => isDigitChar c
  | .notDigit, c => !isDigitChar c
  | .word, c => isWordChar c
  | .notWord, c => !isWordChar c
  | .space, c => isspace c
  | .notSpace, c => !isspace c

/-- Does an atom accept a character.  With `icase` an ordinary character is compared
after `tolower`; `.` accepts everything but a line feed and a carriage return. -/
def Atom.accepts (icase : Bool) : Atom → Char → Bool
  | .char d, c => if icase then tolower c == tolower d else c == d
  | .any, c => c != '\n' && c != '\r'
  | .bracket negated items, c => items.any (fun i => i.accepts icase c) != negated

/-- The declarative meaning of a pattern: `Matches icase r pre u post` says that the
piece `u` of a text, standing between `pre` and `post`, matches `r`. -/
inductive Matches (icase : Bool) : Rx → List Char → List Char → List Char → Prop
  | empty (pre post : List Char) : Matches icase Rx.empty pre [] post
  | atom (a : Atom) (c : Char) (pre post : List Char) (h : a.accepts icase c = true) :
      Matches icase (Rx.atom a) pre [c] post
  | bol (post : List Char) : Matches icase Rx.bol [] [] post
  | eol (pre : List Char) : Matches icase Rx.eol pre [] []
  | seq (r1 r2 : Rx) (pre u1 u2 post : List Char)
      (h1 : Matches icase r1 pre u1 (u2 ++ post)) (h2 : Matches icase r2 (pre ++ u1) u2 post) :
      Matches icase (Rx.seq r1 r2) pre (u1 ++ u2) post
  | altLeft (r1 r2 : Rx) (pre u post : List Char) (h : Matches icase r1 pre u post) :
      Matches icase (Rx.alt r1 r2) pre u post
  | altRight (r1 r2 : Rx) (pre u post : List Char) (h : Matches icase r2 pre u post) :
      Matches icase (Rx.alt r1 r2) pre u post
  | starNil (r : Rx) (pre post : List Char) : Matches icase (Rx.star r) pre [] post
  | starCons (r : Rx) (pre u1 u2 post : List Char)
      (h1 : Matches icase r pre u1 (u2 ++ post))
      (h2 : Matches icase (Rx.star r) (pre ++ u1) u2 post) :
      Matches icase (Rx.star r) pre (u1 ++ u2) post

/-- A text contains a match of a pattern: some piece of it matches (what `regex_search`
looks for, as opposed to the whole text matching). -/
def ContainsMatch (icase : Bool) (r : Rx) (text : List Char) : Prop :=
  ∃ pre u post, text = pre ++ u ++ post ∧ Matches icase r pre u post

/-- Repetition for the matcher: every way to apply `step` zero or more times, each time
consuming at least one character. -/
def starLoop (step : List Char → List Char → List (List Char × List Char)) :
    Nat → List Char → List Char → List (List Char × List Char)
  | 0, pre, rest => [(pre, rest)]
  | fuel + 1, pre, rest =>
    (pre, rest) ::
      ((step pre rest).filter (fun x => x.2.length < rest.length)).flatMap
        (fun x => starLoop step fuel x.1 x.2)

/-- The matcher: all ways a pattern can match at the start of `rest`, the text before
being `pre`; each result is the text before and after the matched piece. -/
def run (icase : Bool) : Rx → List Char → List Char → List (List Char × List Char)
  | Rx.empty, pre, rest => [(pre, rest)]
  | Rx.atom a, pre, rest =>
    match rest with
    | c :: cs => if a.accepts icase c then [(pre ++ [c], cs)] else []
    | [] => []
  | Rx.bol, pre, rest => if pre = [] then [(pre, rest)] else []
  | Rx.eol, pre, rest => if rest = [] then [(pre, rest)] else []
  | Rx.seq r1 r2, pre, rest => (run icase r1 pre rest).flatMap (fun x => run icase r2 x.1 x.2)
  | Rx.alt r1 r2, pre, rest => run icase r1 pre rest ++ run icase r2 pre rest
  | Rx.star r, pre, rest => starLoop (fun p q => run icase r p q) rest.length pre rest

/-- Every position of a text: the part before it and the part from it on. -/
def splitsFrom : List Char → List Char → List (List Char × List Char)
  | pre, [] => [(pre, [])]
  | pre, c :: cs => (pre, c :: cs) :: splitsFrom (pre ++ [c]) cs

/-- The search: is there a position of the text at which the pattern matches. -/
def searchRef (icase : Bool) (r : Rx) (text : List Char) : Bool :=
  (splitsFrom [] text).any (fun x => !(run icase r x.1 x.2).isEmpty)

/-- Is the character the start of a quantifier. -/
def isQuantChar (c : Char) : Bool :=
  c == '*' || c == '+' || c == '?' || c == '{'

/-- The meaning of the character after a backslash, in the modelled grammar. -/
def parseEscape (e : Char) : Option ClassItem :=
  if e = 'd' then some ClassItem.digit
  else if e = 'D' then some ClassItem.notDigit
  else if e = 'w' then some ClassItem.word
  else if e = 'W' then some ClassItem.notWord
  else if e = 's' then some ClassItem.space
  else if e = 'S' then some ClassItem.notSpace
  else if e = 'f' then some (ClassItem.single '\x0c')
  else if e = 'n' then some (ClassItem.single '\n')
  else if e = 'r' then some (ClassItem.single '\r')
  else if e = 't' then some (ClassItem.single '\t')
  else if e = 'v' then some (ClassItem.single '\x0b')
  else if isWordChar e ∧ e ≠ '_' ∨ 128 ≤ e.toNat then none
  else some (ClassItem.single e)

/-- The atom an escape stands for outside a bracket expression. -/
def escapeAtom : ClassItem → Atom
  | ClassItem.single c => Atom.char c
  | item => Atom.bracket false [item]

/-- The members of a bracket expression up to the closing bracket, and what follows. -/
def parseClassItems : Nat → List Char → Option (List ClassItem × List Char)
  | 0, _ => none
  | _ + 1, [] => none
  | fuel + 1, c :: rest =>
    if c = ']' then some ([], rest)
    else if c = '\\' then
      match rest with
      | e :: rest2 =>
        match parseEscape e, parseClassItems fuel rest2 with
        | some item, some (items, after) =>
          if rest2.head? = some '-' then none else some (item :: items, after)
        | _, _ => none
      | [] => none
    else if c = '[' ∨ c = '-' then none
    else if rest.head? = some '-' then
      match rest.tail with
      | hi :: rest3 =>
        if hi = ']' ∨ hi = '\\' ∨ hi = '[' ∨ hi = '-' ∨ 128 ≤ c.toNat ∨ 128 ≤ hi.toNat ∨ hi < c then
          none
        else
          match parseClassItems fuel rest3 with
          | some (items, after) =>
            if rest3.head? = some '-' then none else some (ClassItem.range c hi :: items, after)
          | none => none
      | [] => none
    else
      match parseClassItems fuel rest with
      | some (items, after) => some (ClassItem.single c :: items, after)
      | none => none

/-- A bracket expression after its opening bracket. -/
def parseClass (input : List Char) : Option (Atom × List Char) :=
  let negated := decide (input.head? = some '^')
  match parseClassItems (input.length + 1) (if negated then input.tail else input) with
  | some (item :: items, after) => some (Atom.bracket negated (item :: items), after)
  | _ => none

/-- The quantifier after an atom, if any: `*`, `+` or `?`, optionally followed by the
lazy marker `?` (which does not change whether there is a match). -/
def applyQuant (a : Rx) : List Char → Option (Rx × List Char)
  | [] => some (a, [])
  | c :: t =>
    if c = '{' then none
    else if c = '*' ∨ c = '+' ∨ c = '?' then
      let q := if c = '*' then Rx.star a else if c = '+' then Rx.seq a (Rx.star a)
        else Rx.alt a Rx.empty
      let t1 := if t.head? = some '?' then t.tail else t
      if (t1.head?.map isQuantChar).getD false then none else some (q, t1)
    else some (a, c :: t)

/-- The alternatives read so far together with the one being read. -/
def finishAlt (alts : Option Rx) (cur : Rx) : Rx :=
  match alts with
  | none => cur
  | some a => Rx.alt a cur

/-- Read a disjunction up to a closing parenthesis or the end of the pattern. -/
def parseDisj : Nat → List Char → Option Rx → Rx → Option (Rx × List Char)
  | 0, _, _, _ => none
  | _ + 1, [], alts, cur => some (finishAlt alts cur, [])
  | fuel + 1, c :: rest, alts, cur =>
    if c = ')' then some (finishAlt alts cur, c :: rest)
    else if c = '|' then parseDisj fuel rest (some (finishAlt alts cur)) Rx.empty
    else if c = '^' ∨ c = '$' then
      if (rest.head?.map isQuantChar).getD false then none
      else parseDisj fuel rest alts (Rx.seq cur (if c = '^' then Rx.bol else Rx.eol))
    else if c = '(' then
      match (if rest.head? = some '?' then
              (if rest.tail.head? = some ':' then some rest.tail.tail else none)
             else some rest) with
      | none => none
      | some body =>
        match parseDisj fuel body none Rx.empty with
        | some (g, d :: after) =>
          if d = ')' then
            match applyQuant g after with
            | some (q, after2) => parseDisj fuel after2 alts (Rx.seq cur q)
            | none => none
          else none
        | _ => none
    else if c = '[' then
      match parseClass rest with
      | some (a, after) =>
        match applyQuant (Rx.atom a) after with
        | some (q, after2) => parseDisj fuel after2 alts (Rx.seq cur q)
        | none => none
      | none => none
    else if c = '\\' then
      match rest with
      | e :: after =>
        match parseEscape e with
        | some item =>
          match applyQuant (Rx.atom (escapeAtom item)) after with
          | some (q, after2) => parseDisj fuel after2 alts (Rx.seq cur q)
          | none => none
        | none => none
      | [] => none
    else if c = '*' ∨ c = '+' ∨ c = '?' ∨ c = '{' ∨ c = '}' ∨ c = ']' ∨ c.toNat = 0 then none
    else
      match applyQuant (Rx.atom (if c = '.' then Atom.any else Atom.char c)) rest with
      | some (q, after2) => parseDisj fuel after2 alts (Rx.seq cur q)
      | none => none

/-- The expression of a pattern of the modelled grammar (of at most 1000 characters, far
below the size at which the library gives up). -/
def parsePattern (pattern : String) : Option Rx :=
  if pattern.data.length ≤ 1000 then
    match parseDisj (pattern.data.length + 1) pattern.data none Rx.empty with
    | some (r, []) => some r
    | _ => none
  else none

/-- A library for the modelled grammar only: it compiles a pattern of that grammar, with
no flag or with `icase`, to its expression and searches with the matcher above.  For
every other pattern or flag it throws, which `std::regex` does not; the properties
below are stated for any library and use this one only on patterns of the grammar. -/
def modelRegex : RegexLib where
  regex := Bool × Rx
  basic_regex pattern flags :=
    match parsePattern pattern with
    | some r =>
      if flags = 0 ∨ flags = regex_constants.icase then
        Except.ok (flags == regex_constants.icase, r)
      else Except.error "flags outside the modelled library"
    | none => Except.error "pattern outside the modelled grammar"
  regex_search text re := searchRef re.1 re.2 text.data

/-- A small world: the directory `/a` holds the file `f` (one byte) and the directory `d`,
which holds the empty file `x`; the process was started in `/a`. -/
def exampleWorld : World :=
  { rootPerms := 0o755,
    entries := [(["a"], Node.dir 0o755), (["a", "f"], Node.file 0o644 [1]),
      (["a", "d"], Node.dir 0o755), (["a", "d", "x"], Node.file 0o644 [])],
    cwd := ["a"] }

/-- A run that has its cursor in `/a` of the small world and has printed nothing yet. -/
def exampleState : State :=
  { current_path := "/a", world := exampleWorld, out := [], calls := [] }

/-- The character of a decimal digit. -/
def digitChar (d : Nat) : Char :=
  Char.ofNat ('0'.toNat + d)

/-- The letter the permission triad assigns to one bit of a digit: the letter when the
digit has the bit (4, 2 or 1), a dash otherwise. -/
def triadLetter (digit bit : Nat) (letter : String) : String :=
  if digit / bit % 2 = 1 then letter else "-"

/-- The nine characters `showPermissions` prints for a permission value, in order. -/
def permString (perms : Nat) : String :=
  permChar perms fs.perms.owner_read "r" ++ permChar perms fs.perms.owner_write "w" ++
  permChar perms fs.perms.owner_exec "x" ++ permChar perms fs.perms.group_read "r" ++
  permChar perms fs.perms.group_write "w" ++ permChar perms fs.perms.group_exec "x" ++
  permChar perms fs.perms.others_read "r" ++ permChar perms fs.perms.others_write "w" ++
  permChar perms fs.perms.others_exec "x"

/-- The nine characters the permission triad prescribes for three digits. -/
def triadString (d0 d1 d2 : Nat) : String :=
  triadLetter d0 4 "r" ++ triadLetter d0 2 "w" ++ triadLetter d0 1 "x" ++
  triadLetter d1 4 "r" ++ triadLetter d1 2 "w" ++ triadLetter d1 1 "x" ++
  triadLetter d2 4 "r" ++ triadLetter d2 2 "w" ++ triadLetter d2 1 "x"

/-- The commands that take arguments, as the command table of the specification lists
them: keyword, number of required arguments, and the usage message of the command. -/
def commandTable : List (String × Nat × List String) :=
  [("cd", 1, ["Usage: cd <directory>\n"]),
   ("touch", 1, ["Usage: touch <filename>\n"]),
   ("mkdir", 1, ["Usage: mkdir <dirname>\n"]),
   ("rm", 1, ["Usage: rm <path>\n"]),
   ("find", 1, ["Usage: find <pattern>\n", "Example: find \\.txt\n", "Example: find test\n"]),
   ("stat", 1, ["Usage: stat <file>\n"]),
   ("cp", 2, ["Usage: cp <source> <destination>\n"]),
   ("mv", 2, ["Usage: mv <source> <destination>\n"]),
   ("chmod", 2, ["Usage: chmod <file> <permissions>\n", "Example: chmod file.txt 755\n",
     "Example: chmod file.txt 644\n"])]

/-- A world holding the three files `report.txt`, `report.csv` and `image.png` in the
directory `/work`, where the process was started. -/
def reportWorld : World :=
  { rootPerms := 0o755,
    entries := [(["work"], Node.dir 0o755), (["work", "report.txt"], Node.file 0o644 []),
      (["work", "report.csv"], Node.file 0o644 []), (["work", "image.png"], Node.file 0o644 [])],
    cwd := ["work"] }

/-- A run that has its cursor in `/work` of that world and has printed nothing yet. -/
def reportState : State :=
  { current_path := "/work", world := reportWorld, out := [], calls := [] }

/-- A world holding `REPORT.TXT`, `report.csv`, `notes.Txt` and `image.png` in the
directory `/work`, where the process was started. -/
def mixedCaseWorld : World :=
  { rootPerms := 0o755,
    entries := [(["work"], Node.dir 0o755), (["work", "REPORT.TXT"], Node.file 0o644 []),
      (["work", "report.csv"], Node.file 0o644 []), (["work", "notes.Txt"], Node.file 0o644 []),
      (["work", "image.png"], Node.file 0o644 [])],
    cwd := ["work"] }

/-- A run that has its cursor in `/work` of that world and has printed nothing yet. -/
def mixedCaseState : State :=
  { current_path := "/work", world := mixedCaseWorld, out := [], calls := [] }

/-! # Properties -/

/-! ## Changing permission bits keeps every pathname's meaning -/

theorem lookup_map_perms (es : List (Key × Node)) (k k' : Key) (m : Nat) :
    (es.map (fun e => if e.1 = k then (e.1, fs.withPerms m e.2) else e)).lookup k' =
    (es.lookup k').map (fun n => if k' = k then fs.withPerms m n else n) := by
  induction es with
  | nil => simp
  | cons e es ih =>
    obtain ⟨ek, en⟩ := e
    by_cases h2 : ek = k
    · by_cases h1 : k' = ek
      · simp [List.lookup_cons, h1, h2]
      · have h1b : (k' == ek) = false := by simpa using h1
        have h1c : (k' == k) = false := by rw [← h2]; exact h1b
        simp only [List.map_cons, h2, if_true, List.lookup_cons, h1c]
        exact ih
    · by_cases h1 : k' = ek
      · subst h1
        simp [List.lookup_cons, h2]
      · have h1b : (k' == ek) = false := by simpa using h1
        simp only [List.map_cons, h2, if_false, List.lookup_cons, h1b]
        exact ih

theorem lookup_setPerms (w : World) (k k' : Key) (m : Nat) :
    (fs.setPerms w k m).lookup k' =
      (w.lookup k').map (fun n => if k' = k then fs.withPerms m n else n) := by
  unfold fs.setPerms
  by_cases hk : k = []
  · subst hk
    by_cases hk' : k' = []
    · subst hk'
      simp [World.lookup, fs.withPerms]
    · simp only [if_true, World.lookup, hk', if_false]
      cases h : w.entries.lookup k' <;> simp
  · by_cases hk' : k' = []
    · subst hk'
      have : ¬ ([] : Key) = k := fun h => hk h.symm
      simp [World.lookup, hk, World.setEntries, this]
    · simp only [hk, if_false, World.lookup, hk', World.setEntries]
      exact lookup_map_perms w.entries k k' m

theorem isDir_setPerms (w : World) (k k' : Key) (m : Nat) :
    (fs.setPerms w k m).isDir k' = w.isDir k' := by
  unfold World.isDir
  rw [lookup_setPerms]
  cases h : w.lookup k' with
  | none => simp
  | some n =>
    cases n <;> by_cases hk : k' = k <;> simp [hk, fs.withPerms]

theorem cwd_setPerms (w : World) (k : Key) (m : Nat) : (fs.setPerms w k m).cwd = w.cwd := by
  unfold fs.setPerms
  split <;> rfl

theorem walk_setPerms (w : World) (k : Key) (m : Nat) (comps : List String) :
    ∀ cur, (fs.setPerms w k m).walk cur comps = w.walk cur comps := by
  induction comps with
  | nil => intro cur; rfl
  | cons c cs ih =>
    intro cur
    simp only [World.walk, isDir_setPerms, ih]

theorem resolve_setPerms (w : World) (k : Key) (m : Nat) (p : String) :
    (fs.setPerms w k m).resolve p = w.resolve p := by
  unfold World.resolve
  rw [walk_setPerms, cwd_setPerms]
  by_cases hp : p = ""
  · simp [hp]
  · simp only [hp, if_false]
    cases h : w.walk (if is_absolute p = true then [] else w.cwd) (components p) with
    | none => rfl
    | some k' =>
      simp only [lookup_setPerms]
      cases w.lookup k' <;> simp

/-! ## C1: what `changePermissions` checks about the permission string -/

/-- C1 (refuted on the code): on the existing file `/a/f` the strings `rwx` and `888`, which
are not three digits in 0..7, are not rejected: `changePermissions` issues the
`fs::permissions` call (with the values 0270 and 0), prints the success message and
the permission bits of the file change. -/
theorem C1_non_octal_triad_is_applied :
    fs.path_exists exampleState.world (pathAppend exampleState.current_path "f") = true ∧
    (changePermissions exampleState "f" "rwx").calls =
      [FsCall.permissions "/a/f" 0o270 fs.perm_options.replace] ∧
    (changePermissions exampleState "f" "rwx").out =
      ["Permissions changed to: rwx\n", "Command completed successfully!\n\n"] ∧
    fs.status_permissions exampleState.world "/a/f" = 0o644 ∧
    fs.status_permissions (changePermissions exampleState "f" "rwx").world "/a/f" = 0o270 ∧
    (changePermissions exampleState "f" "888").calls =
      [FsCall.permissions "/a/f" 0 fs.perm_options.replace] ∧
    (changePermissions exampleState "f" "888").out =
      ["Permissions changed to: 888\n", "Command completed successfully!\n\n"] := by
  decide

/-- The part of C1 that holds: a permission string whose length is not 3 is rejected with
the format error, and nothing is applied. -/
theorem changePermissions_wrong_length (s : State) (path perms_str : String)
    (hex : fs.path_exists s.world (pathAppend s.current_path path) = true)
    (hlen : perms_str.data.length ≠ 3) :
    changePermissions s path perms_str = s.print "Error: Use 3-digit format (e.g., 755)\n" := by
  unfold changePermissions
  simp only [hex, not_true_eq_false, if_false]
  split
  · rename_i c0 c1 c2 hd
    rw [hd] at hlen
    exact absurd rfl hlen
  · rfl

/-! ## C2: the value built from three octal digits, as displayed by `showPermissions` -/

theorem status_setPerms (w : World) (k : Key) (m : Nat) (p : String)
    (h : w.resolve p = some k) : fs.status_permissions (fs.setPerms w k m) p = m := by
  unfold fs.status_permissions
  rw [resolve_setPerms, h]
  have hl : (w.lookup k).isSome = true := by
    unfold World.resolve at h
    split at h
    · cases h
    · split at h
      · rename_i k' hw
        split at h
        · rename_i hs
          cases h
          exact hs
        · cases h
      · cases h
  obtain ⟨n, hn⟩ := Option.isSome_iff_exists.mp hl
  simp only [Option.bind, lookup_setPerms, hn, Option.map, if_true]
  cases n <;> rfl

theorem is_directory_setPerms (w : World) (k : Key) (m : Nat) (p : String) :
    fs.is_directory (fs.setPerms w k m) p = fs.is_directory w p := by
  unfold fs.is_directory
  rw [resolve_setPerms]
  cases w.resolve p <;> simp [isDir_setPerms]

theorem path_exists_setPerms (w : World) (k : Key) (m : Nat) (p : String) :
    fs.path_exists (fs.setPerms w k m) p = fs.path_exists w p := by
  unfold fs.path_exists
  rw [resolve_setPerms]

/-- With an existing target and a three-character string, `changePermissions` issues one
`fs::permissions` call with the value it built, and reports success. -/
theorem changePermissions_three (s : State) (path : String) (c0 c1 c2 : Char) (k : Key)
    (hk : s.world.resolve (pathAppend s.current_path path) = some k) :
    changePermissions s path (String.mk [c0, c1, c2]) =
      { current_path := s.current_path,
        world := fs.setPerms s.world k (new_perms c0 c1 c2 &&& fs.perms.mask),
        out := s.out ++ ["Permissions changed to: " ++ String.mk [c0, c1, c2] ++ "\n",
          "Command completed successfully!\n\n"],
        calls := s.calls ++ [FsCall.permissions (pathAppend s.current_path path)
          (new_perms c0 c1 c2) fs.perm_options.replace] } := by
  have hex : fs.path_exists s.world (pathAppend s.current_path path) = true := by
    simp [fs.path_exists, hk]
  have hrep : fs.perm_options.replace ≠ 0 := by decide
  simp [changePermissions, hex, fs.permissions, hk, hrep, State.issue, State.print]

theorem triad_letters (d0 d1 d2 : Nat) (h0 : d0 ≤ 7) (h1 : d1 ≤ 7) (h2 : d2 ≤ 7) :
    permChar (new_perms (digitChar d0) (digitChar d1) (digitChar d2) &&& fs.perms.mask)
        fs.perms.owner_read "r" = triadLetter d0 4 "r" ∧
    permChar (new_perms (digitChar d0) (digitChar d1) (digitChar d2) &&& fs.perms.mask)
        fs.perms.owner_write "w" = triadLetter d0 2 "w" ∧
    permChar (new_perms (digitChar d0) (digitChar d1) (digitChar d2) &&& fs.perms.mask)
        fs.perms.owner_exec "x" = triadLetter d0 1 "x" ∧
    permChar (new_perms (digitChar d0) (digitChar d1) (digitChar d2) &&& fs.perms.mask)
        fs.perms.group_read "r" = triadLetter d1 4 "r" ∧
    permChar (new_perms (digitChar d0) (digitChar d1) (digitChar d2) &&& fs.perms.mask)
        fs.perms.group_write "w" = triadLetter d1 2 "w" ∧
    permChar (new_perms (digitChar d0) (digitChar d1) (digitChar d2) &&& fs.perms.mask)
        fs.perms.group_exec "x" = triadLetter d1 1 "x" ∧
    permChar (new_perms (digitChar d0) (digitChar d1) (digitChar d2) &&& fs.perms.mask)
        fs.perms.others_read "r" = triadLetter d2 4 "r" ∧
    permChar (new_perms (digitChar d0) (digitChar d1) (digitChar d2) &&& fs.perms.mask)
        fs.perms.others_write "w" = triadLetter d2 2 "w" ∧
    permChar (new_perms (digitChar d0) (digitChar d1) (digitChar d2) &&& fs.perms.mask)
        fs.perms.others_exec "x" = triadLetter d2 1 "x" := by
  interval_cases d0 <;> interval_cases d1 <;> interval_cases d2 <;> decide

/-- C2: for digits `d0 d1 d2` in 0..7 and an existing target, `changePermissions` with the
three-digit string applies the value it built with replace semantics, and
`showPermissions` afterwards prints, for owner, group and others, `r` exactly when the
digit has bit 4, `w` exactly when it has bit 2 and `x` exactly when it has bit 1. -/
theorem C2_chmod_then_stat (s : State) (path : String) (d0 d1 d2 : Nat)
    (hex : fs.path_exists s.world (pathAppend s.current_path path) = true)
    (h0 : d0 ≤ 7) (h1 : d1 ≤ 7) (h2 : d2 ≤ 7) :
    (changePermissions s path (String.mk [digitChar d0, digitChar d1, digitChar d2])).calls =
      s.calls ++ [FsCall.permissions (pathAppend s.current_path path)
        (new_perms (digitChar d0) (digitChar d1) (digitChar d2)) fs.perm_options.replace] ∧
    permString (fs.status_permissions
      (changePermissions s path (String.mk [digitChar d0, digitChar d1, digitChar d2])).world
      (pathAppend s.current_path path)) = triadString d0 d1 d2 ∧
    (showPermissions
      (changePermissions s path (String.mk [digitChar d0, digitChar d1, digitChar d2])) path).out =
      (changePermissions s path (String.mk [digitChar d0, digitChar d1, digitChar d2])).out ++
        ["\nPermissions for: " ++ showPath (pathAppend s.current_path path) ++ "\n",
         dashes 50 ++ "\n",
         "Owner (User): ", triadLetter d0 4 "r", triadLetter d0 2 "w", triadLetter d0 1 "x" ++ "\n",
         "Group:        ", triadLetter d1 4 "r", triadLetter d1 2 "w", triadLetter d1 1 "x" ++ "\n",
         "Other:        ", triadLetter d2 4 "r", triadLetter d2 2 "w", triadLetter d2 1 "x" ++ "\n",
         dashes 50 ++ "\n",
         (if fs.is_directory s.world (pathAppend s.current_path path) then "Type: Directory\n"
          else "Type: File\n"),
         "\n"] := by
  obtain ⟨k, hk⟩ := Option.isSome_iff_exists.mp hex
  obtain ⟨l1, l2, l3, l4, l5, l6, l7, l8, l9⟩ := triad_letters d0 d1 d2 h0 h1 h2
  rw [changePermissions_three s path _ _ _ k hk]
  refine ⟨rfl, ?_, ?_⟩
  · simp only [permString, triadString, status_setPerms _ _ _ _ hk, l1, l2, l3, l4, l5, l6, l7, l8, l9]
  · simp only [showPermissions, path_exists_setPerms, hex, status_setPerms _ _ _ _ hk,
      is_directory_setPerms, l1, l2, l3, l4, l5, l6, l7, l8, l9]
    by_cases hd : fs.is_directory s.world (pathAppend s.current_path path) = true <;>
      simp [hd, State.print, is_directory_setPerms]

/-- Witness for C2 on the small world: 755 shows as `rwxr-xr-x` and 644 as `rw-r--r--`. -/
theorem C2_chmod_then_stat_witness :
    fs.path_exists exampleState.world (pathAppend exampleState.current_path "f") = true ∧
    permString (fs.status_permissions (changePermissions exampleState "f" "755").world "/a/f")
      = "rwxr-xr-x" ∧
    permString (fs.status_permissions (changePermissions exampleState "f" "644").world "/a/f")
      = "rw-r--r--" :=
  ⟨by decide,
   (C2_chmod_then_stat exampleState "f" 7 5 5 (by decide) (by decide) (by decide) (by decide)).2.1,
   (C2_chmod_then_stat exampleState "f" 6 4 4 (by decide) (by decide) (by decide) (by decide)).2.1⟩

/-! ## C3: the count `deleteFile` reports for a directory -/

theorem below_irrefl (k : Key) : below k k = false := by
  simp [below]

theorem removed_partition (k : Key) (es : List (Key × Node)) :
    es.length =
      ((es.filter (fun e => !below k e.1)).filter (fun e => e.1 != k)).length +
        (es.filter (fun e => below k e.1)).length + es.countP (fun e => e.1 == k) := by
  induction es with
  | nil => rfl
  | cons e es ih =>
    by_cases hb : below k e.1 = true
    · have hne : e.1 ≠ k := by
        intro h
        rw [h, below_irrefl] at hb
        cases hb
      have hne' : (e.1 == k) = false := by simpa using hne
      simp only [List.filter_cons, hb, Bool.not_true, List.countP_cons, hne', List.length_cons]
      simp only [Bool.false_eq_true, if_false, if_true, List.length_cons]
      omega
    · have hb' : below k e.1 = false := by simpa using hb
      by_cases hk : e.1 = k
      · have hk' : (e.1 == k) = true := by simpa using hk
        have hk2 : (e.1 != k) = false := by simp [bne, hk']
        simp only [List.filter_cons, hb', Bool.not_false, if_true, List.countP_cons, hk', hk2,
          List.length_cons, Bool.false_eq_true, if_false]
        omega
      · have hk' : (e.1 == k) = false := by simpa using hk
        have hk2 : (e.1 != k) = true := by simp [bne, hk']
        simp only [List.filter_cons, hb', Bool.not_false, if_true, List.countP_cons, hk', hk2,
          List.length_cons, Bool.false_eq_true, if_false]
        omega

theorem mem_of_lookup (es : List (Key × Node)) (k : Key) (n : Node)
    (h : es.lookup k = some n) : k ∈ es.map Prod.fst := by
  induction es with
  | nil => simp only [List.lookup] at h; cases h
  | cons e es ih =>
    obtain ⟨ek, en⟩ := e
    by_cases hk : k = ek
    · simp only [List.map_cons, List.mem_cons]
      exact Or.inl hk
    · have hk' : (k == ek) = false := beq_eq_false_iff_ne.mpr hk
      rw [List.lookup_cons, hk'] at h
      simp only [List.map_cons, List.mem_cons]
      exact Or.inr (ih h)

theorem mem_keys_of_isDir (w : World) (k : Key) (hne : k ≠ []) (hd : w.isDir k = true) :
    k ∈ w.entries.map Prod.fst := by
  unfold World.isDir World.lookup at hd
  simp only [hne, if_false] at hd
  cases h : w.entries.lookup k with
  | none => simp [h] at hd
  | some n => exact mem_of_lookup _ _ _ h

theorem nodup_of_wf (w : World) (h : w.wf = true) : (w.entries.map Prod.fst).Nodup := by
  unfold World.wf at h
  simp only [Bool.and_eq_true, decide_eq_true_eq] at h
  exact h.1

theorem countP_key_of_nodup (k : Key) (es : List (Key × Node))
    (hnd : (es.map Prod.fst).Nodup) (hmem : k ∈ es.map Prod.fst) :
    es.countP (fun e => e.1 == k) = 1 := by
  induction es with
  | nil => simp at hmem
  | cons e es ih =>
    rw [List.map_cons, List.nodup_cons] at hnd
    by_cases hk : e.1 = k
    · have hk' : (e.1 == k) = true := by simpa using hk
      have hz : es.countP (fun e => e.1 == k) = 0 := by
        rw [List.countP_eq_zero]
        intro a ha hak
        have hak' : a.1 = k := by simpa using hak
        exact hnd.1 (by rw [hk, ← hak']; exact List.mem_map_of_mem _ ha)
      simp [List.countP_cons, hk', hz]
    · have hk' : (e.1 == k) = false := by simpa using hk
      have hm : k ∈ es.map Prod.fst := by
        rw [List.map_cons, List.mem_cons] at hmem
        rcases hmem with h | h
        · exact absurd h.symm hk
        · exact h
      simp [List.countP_cons, hk', ih hnd.2 hm]

theorem countP_key_eq_one (w : World) (k : Key) (hwf : w.wf = true)
    (hmem : k ∈ w.entries.map Prod.fst) : w.entries.countP (fun e => e.1 == k) = 1 :=
  countP_key_of_nodup k w.entries (nodup_of_wf w hwf) hmem

/-- C3 (as amended): when the target of `deleteFile` is an existing directory other than the
root, named by a pathname that does not end in `.` or `..`, the count in the message is
the number of objects the directory recursively contained plus one (the directory
itself); in a well-formed world that is exactly the number of objects that
disappeared. -/
theorem C3_rm_reports_contained_plus_one (s : State) (path : String) (k : Key)
    (hwf : s.world.wf = true)
    (hk : s.world.resolve (pathAppend s.current_path path) = some k)
    (hdir : s.world.isDir k = true) (hroot : k ≠ [])
    (hdot : fs.endsInDot (pathAppend s.current_path path) = false) :
    (deleteFile s path).out = s.out ++
      ["Directory deleted: " ++ showPath (pathAppend s.current_path path) ++ " (" ++
        toString ((s.world.descendants k).length + 1) ++ " items removed)\n"] ∧
    (deleteFile s path).calls = s.calls ++ [FsCall.remove_all (pathAppend s.current_path path)] ∧
    s.world.entries.length =
      (deleteFile s path).world.entries.length + ((s.world.descendants k).length + 1) := by
  have hex : fs.path_exists s.world (pathAppend s.current_path path) = true := by
    simp [fs.path_exists, hk]
  have hisd : fs.is_directory s.world (pathAppend s.current_path path) = true := by
    simp [fs.is_directory, hk, hdir]
  have hrun : deleteFile s path =
      ((s.issue (FsCall.remove_all (pathAppend s.current_path path))
        (s.world.setEntries ((s.world.entries.filter (fun e => !below k e.1)).filter
          (fun e => e.1 != k)))).print
        ("Directory deleted: " ++ showPath (pathAppend s.current_path path) ++ " (" ++
          toString ((s.world.descendants k).length + 1) ++ " items removed)\n")) := by
    have hd : ¬ fs.lastField (pathAppend s.current_path path) = some "." ∧
        ¬ fs.lastField (pathAppend s.current_path path) = some ".." := by
      simpa [fs.endsInDot] using hdot
    simp [deleteFile, hex, hisd, fs.remove_all, hk, hdir, hroot, hd.1, hd.2, World.setEntries]
  rw [hrun]
  refine ⟨rfl, rfl, ?_⟩
  have hp := removed_partition k s.world.entries
  have hone := countP_key_eq_one s.world k hwf (mem_keys_of_isDir s.world k hroot hdir)
  simp only [State.print, State.issue, World.setEntries, World.descendants]
  omega

/-- Witness for C3 as amended: deleting the directory `d` of the small world, which holds
one file, reports 2 items. -/
theorem C3_rm_reports_contained_plus_one_witness :
    (exampleWorld.descendants ["a", "d"]).length = 1 ∧
    (deleteFile exampleState "d").out = ["Directory deleted: \"/a/d\" (2 items removed)\n"] :=
  ⟨by decide,
   (C3_rm_reports_contained_plus_one exampleState "d" ["a", "d"] (by decide) (by decide)
      (by decide) (by decide) (by decide)).1⟩

/-- C3 (refuted as stated): the directory `/a/d` of the small world recursively contains
exactly one object, and `deleteFile` reports 2 items removed, not 1. -/
theorem C3_rm_count_counterexample :
    fs.is_directory exampleState.world (pathAppend exampleState.current_path "d") = true ∧
    exampleWorld.descendants ["a", "d"] = [(["a", "d", "x"], Node.file 0o644 [])] ∧
    (deleteFile exampleState "d").out = ["Directory deleted: \"/a/d\" (2 items removed)\n"] ∧
    (deleteFile exampleState "d").out ≠ ["Directory deleted: \"/a/d\" (1 items removed)\n"] := by
  decide

/-! ## Words of an input line -/

theorem extract_length (l : List Char) (word : String) (rest : List Char)
    (h : extract l = some (word, rest)) : rest.length < l.length := by
  unfold extract at h
  split at h
  · cases h
  · rename_i c cs hc
    simp only [Option.some.injEq, Prod.mk.injEq] at h
    have h1 : (c :: cs).length ≤ l.length := by
      rw [← hc]
      exact (List.dropWhile_sublist _).length_le
    have h2 : rest.length ≤ cs.length := by
      rw [← h.2]
      exact (List.dropWhile_sublist _).length_le
    simp only [List.length_cons] at h1
    omega

theorem tokensFuel_stable (n : Nat) :
    ∀ (m : Nat) (l : List Char), l.length ≤ n → l.length ≤ m →
      tokensFuel n l = tokensFuel m l := by
  induction n with
  | zero =>
    intro m l hn _
    have hl : l = [] := List.length_eq_zero.mp (Nat.le_zero.mp hn)
    subst hl
    cases m <;> rfl
  | succ n ih =>
    intro m l hn hm
    cases m with
    | zero =>
      have hl : l = [] := List.length_eq_zero.mp (Nat.le_zero.mp hm)
      subst hl
      rfl
    | succ m =>
      simp only [tokensFuel]
      cases h : extract l with
      | none => rfl
      | some r =>
        obtain ⟨word, rest⟩ := r
        have hlt := extract_length l word rest h
        simp only
        rw [ih m rest (by omega) (by omega)]

theorem tokens_of_extract (input : String) (word : String) (rest : List Char)
    (h : extract input.data = some (word, rest)) :
    tokens input = word :: tokensFuel rest.length rest := by
  have hlt := extract_length _ _ _ h
  unfold tokens
  cases hn : input.data.length with
  | zero => omega
  | succ n =>
    simp only [tokensFuel, h]
    rw [tokensFuel_stable n rest.length rest (by omega) (le_refl _)]

theorem tokensFuel_of_extract (l : List Char) (word : String) (rest : List Char)
    (h : extract l = some (word, rest)) :
    tokensFuel l.length l = word :: tokensFuel rest.length rest := by
  have hlt := extract_length _ _ _ h
  cases hn : l.length with
  | zero => omega
  | succ n =>
    simp only [tokensFuel, h]
    rw [tokensFuel_stable n rest.length rest (by omega) (le_refl _)]

theorem tokensFuel_of_extract_none (l : List Char) (h : extract l = none) :
    tokensFuel l.length l = [] := by
  cases hn : l.length with
  | zero => rfl
  | succ n => simp only [tokensFuel, h]

theorem choose_eq_changeDirectory (command : String) (rest : List Char) (path : String)
    (h : choose command rest = Action.changeDirectory path) :
    command = "cd" ∧ path ≠ ".." ∧ ∃ r, extract rest = some (path, r) := by
  unfold choose at h
  by_cases h0 : command = "exit" ∨ command = "quit"
  · rw [if_pos h0] at h; cases h
  rw [if_neg h0] at h
  by_cases h1 : command = "help"
  · rw [if_pos h1] at h; cases h
  rw [if_neg h1] at h
  by_cases h2 : command = "ls"
  · rw [if_pos h2] at h; cases h
  rw [if_neg h2] at h
  by_cases h3 : command = "pwd"
  · rw [if_pos h3] at h; cases h
  rw [if_neg h3] at h
  by_cases h4 : command = "cd"
  · rw [if_pos h4] at h
    split at h
    · rename_i p r hp
      by_cases hdd : p = ".."
      · rw [if_pos hdd] at h; cases h
      · rw [if_neg hdd] at h
        simp only [Action.changeDirectory.injEq] at h
        subst h
        exact ⟨h4, hdd, r, hp⟩
    · cases h
  rw [if_neg h4] at h
  by_cases h5 : command = "touch"
  · rw [if_pos h5] at h; split at h <;> cases h
  rw [if_neg h5] at h
  by_cases h6 : command = "mkdir"
  · rw [if_pos h6] at h; split at h <;> cases h
  rw [if_neg h6] at h
  by_cases h7 : command = "cp"
  · rw [if_pos h7] at h; split at h <;> cases h
  rw [if_neg h7] at h
  by_cases h8 : command = "mv"
  · rw [if_pos h8] at h; split at h <;> cases h
  rw [if_neg h8] at h
  by_cases h9 : command = "rm"
  · rw [if_pos h9] at h; split at h <;> cases h
  rw [if_neg h9] at h
  by_cases h10 : command = "find"
  · rw [if_pos h10] at h; split at h <;> cases h
  rw [if_neg h10] at h
  by_cases h11 : command = "stat"
  · rw [if_pos h11] at h; split at h <;> cases h
  rw [if_neg h11] at h
  by_cases h12 : command = "chmod"
  · rw [if_pos h12] at h; split at h <;> cases h
  rw [if_neg h12] at h
  cases h

theorem choose_eq_goParent (command : String) (rest : List Char)
    (h : choose command rest = Action.goParent) :
    command = "cd" ∧ ∃ r, extract rest = some ("..", r) := by
  unfold choose at h
  by_cases h0 : command = "exit" ∨ command = "quit"
  · rw [if_pos h0] at h; cases h
  rw [if_neg h0] at h
  by_cases h1 : command = "help"
  · rw [if_pos h1] at h; cases h
  rw [if_neg h1] at h
  by_cases h2 : command = "ls"
  · rw [if_pos h2] at h; cases h
  rw [if_neg h2] at h
  by_cases h3 : command = "pwd"
  · rw [if_pos h3] at h; cases h
  rw [if_neg h3] at h
  by_cases h4 : command = "cd"
  · rw [if_pos h4] at h
    split at h
    · rename_i p r hp
      by_cases hdd : p = ".."
      · subst hdd
        exact ⟨h4, r, hp⟩
      · rw [if_neg hdd] at h; cases h
    · cases h
  rw [if_neg h4] at h
  by_cases h5 : command = "touch"
  · rw [if_pos h5] at h; split at h <;> cases h
  rw [if_neg h5] at h
  by_cases h6 : command = "mkdir"
  · rw [if_pos h6] at h; split at h <;> cases h
  rw [if_neg h6] at h
  by_cases h7 : command = "cp"
  · rw [if_pos h7] at h; split at h <;> cases h
  rw [if_neg h7] at h
  by_cases h8 : command = "mv"
  · rw [if_pos h8] at h; split at h <;> cases h
  rw [if_neg h8] at h
  by_cases h9 : command = "rm"
  · rw [if_pos h9] at h; split at h <;> cases h
  rw [if_neg h9] at h
  by_cases h10 : command = "find"
  · rw [if_pos h10] at h; split at h <;> cases h
  rw [if_neg h10] at h
  by_cases h11 : command = "stat"
  · rw [if_pos h11] at h; split at h <;> cases h
  rw [if_neg h11] at h
  by_cases h12 : command = "chmod"
  · rw [if_pos h12] at h; split at h <;> cases h
  rw [if_neg h12] at h
  cases h

theorem route_eq_changeDirectory (input path : String)
    (h : route input = Action.changeDirectory path) :
    path ≠ ".." ∧ ∃ more, tokens input = "cd" :: path :: more := by
  unfold route at h
  split_ifs at h
  split at h
  · rename_i command rest he
    obtain ⟨hc, hdd, r, hr⟩ := choose_eq_changeDirectory command rest path h
    refine ⟨hdd, tokensFuel r.length r, ?_⟩
    rw [tokens_of_extract input command rest he, tokensFuel_of_extract rest path r hr, hc]
  · exact absurd (choose_eq_changeDirectory _ _ _ h).1 (by decide)

theorem route_eq_goParent (input : String) (h : route input = Action.goParent) :
    ∃ more, tokens input = "cd" :: ".." :: more := by
  unfold route at h
  split_ifs at h
  split at h
  · rename_i command rest he
    obtain ⟨hc, r, hr⟩ := choose_eq_goParent command rest h
    refine ⟨tokensFuel r.length r, ?_⟩
    rw [tokens_of_extract input command rest he, tokensFuel_of_extract rest ".." r hr, hc]
  · exact absurd (choose_eq_goParent _ _ h).1 (by decide)

/-! ## C4: which commands move the cursor -/

theorem print_current_path (s : State) (text : String) :
    (s.print text).current_path = s.current_path := rfl

theorem issue_current_path (s : State) (c : FsCall) (w : World) :
    (s.issue c w).current_path = s.current_path := rfl

theorem foldl_print_current_path (f : fs.directory_entry → String)
    (entries : List fs.directory_entry) :
    ∀ s : State, (entries.foldl (fun acc entry => acc.print (f entry)) s).current_path =
      s.current_path := by
  induction entries with
  | nil => intro s; rfl
  | cons e es ih => intro s; rw [List.foldl_cons, ih]; rfl

theorem foldl_findStep_current_path (search : String → Bool)
    (entries : List fs.directory_entry) :
    ∀ acc : State × Int, (entries.foldl (findStep search) acc).1.current_path =
      acc.1.current_path := by
  induction entries with
  | nil => intro acc; rfl
  | cons e es ih =>
    intro acc
    rw [List.foldl_cons, ih]
    unfold findStep
    split <;> rfl

theorem listFiles_current_path (s : State) : (listFiles s).current_path = s.current_path := by
  unfold listFiles
  simp only
  split
  · rfl
  · split
    · simp only [print_current_path, foldl_print_current_path]
    · rfl

theorem createFile_current_path (s : State) (f : String) :
    (createFile s f).current_path = s.current_path := by
  unfold createFile
  simp only
  split <;> rfl

theorem createDirectory_current_path (s : State) (d : String) :
    (createDirectory s d).current_path = s.current_path := by
  unfold createDirectory
  simp only
  split
  · rfl
  · split <;> rfl

theorem copyFile_current_path (s : State) (a b : String) :
    (copyFile s a b).current_path = s.current_path := by
  unfold copyFile
  simp only
  split
  · rfl
  · split
    · rfl
    · split <;> rfl

theorem moveFile_current_path (s : State) (a b : String) :
    (moveFile s a b).current_path = s.current_path := by
  unfold moveFile
  simp only
  split
  · rfl
  · split
    · rfl
    · split <;> rfl

theorem deleteFile_current_path (s : State) (p : String) :
    (deleteFile s p).current_path = s.current_path := by
  unfold deleteFile
  simp only
  split
  · rfl
  · split
    · split <;> rfl
    · split <;> rfl

theorem findFiles_current_path (regex : RegexLib) (s : State) (pattern : String) :
    (findFiles regex s pattern).current_path = s.current_path := by
  unfold findFiles
  simp only
  split
  · rfl
  · split
    · simp only [print_current_path, foldl_findStep_current_path]
    · rfl

theorem showPermissions_current_path (s : State) (p : String) :
    (showPermissions s p).current_path = s.current_path := by
  unfold showPermissions
  simp only
  split
  · rfl
  · split <;> simp only [print_current_path]

theorem changePermissions_current_path (s : State) (p q : String) :
    (changePermissions s p q).current_path = s.current_path := by
  unfold changePermissions
  simp only
  split
  · rfl
  · split
    · split <;> rfl
    · rfl

theorem changeDirectory_moves (s : State) (path : String)
    (h : (changeDirectory s path).current_path ≠ s.current_path) :
    fs.path_exists s.world (new_path s.current_path path) = true ∧
    fs.is_directory s.world (new_path s.current_path path) = true := by
  unfold changeDirectory at h
  by_cases h1 : fs.path_exists s.world (new_path s.current_path path) = true
  · by_cases h2 : fs.is_directory s.world (new_path s.current_path path) = true
    · exact ⟨h1, h2⟩
    · simp [h1, h2, State.print] at h
  · simp [h1, State.print] at h

theorem goParent_moves (s : State) (h : (goParent s).current_path ≠ s.current_path) :
    has_parent_path s.current_path = true ∧
    pathEq s.current_path (root_path s.current_path) = false := by
  unfold goParent at h
  split_ifs at h with hc
  · exact ⟨hc.1, by simpa using hc.2⟩
  · exact absurd rfl h

/-- C4: if dispatching an input line changes the cursor, then the line is `cd ..` issued
where `goParent` moves (the cursor has a parent and is not the root), or `cd arg` with
another argument whose resolved target exists and is a directory.  Hence every other
command, a `cd` without argument and every failed `cd` leave the cursor unchanged. -/
theorem C4_cursor_moves_only_by_cd (regex : RegexLib) (s : State) (input : String)
    (h : (dispatch regex s input).current_path ≠ s.current_path) :
    ∃ arg more, tokens input = "cd" :: arg :: more ∧
      ((arg = ".." ∧ has_parent_path s.current_path = true ∧
          pathEq s.current_path (root_path s.current_path) = false) ∨
       (arg ≠ ".." ∧ fs.path_exists s.world (new_path s.current_path arg) = true ∧
          fs.is_directory s.world (new_path s.current_path arg) = true)) := by
  unfold dispatch at h
  cases hr : route input with
  | goParent =>
    rw [hr] at h
    obtain ⟨more, ht⟩ := route_eq_goParent input hr
    exact ⟨"..", more, ht, Or.inl ⟨rfl, goParent_moves s h⟩⟩
  | changeDirectory path =>
    rw [hr] at h
    obtain ⟨hdd, more, ht⟩ := route_eq_changeDirectory input path hr
    exact ⟨path, more, ht, Or.inr ⟨hdd, changeDirectory_moves s path h⟩⟩
  | skip => rw [hr] at h; exact absurd rfl h
  | exit => rw [hr] at h; exact absurd rfl h
  | showHelp => rw [hr] at h; exact absurd rfl h
  | listFiles => rw [hr] at h; exact absurd (listFiles_current_path s) h
  | printWorkingDirectory => rw [hr] at h; exact absurd rfl h
  | createFile f => rw [hr] at h; exact absurd (createFile_current_path s f) h
  | createDirectory d => rw [hr] at h; exact absurd (createDirectory_current_path s d) h
  | copyFile a b => rw [hr] at h; exact absurd (copyFile_current_path s a b) h
  | moveFile a b => rw [hr] at h; exact absurd (moveFile_current_path s a b) h
  | deleteFile p => rw [hr] at h; exact absurd (deleteFile_current_path s p) h
  | findFiles p => rw [hr] at h; exact absurd (findFiles_current_path regex s p) h
  | showPermissions p => rw [hr] at h; exact absurd (showPermissions_current_path s p) h
  | changePermissions p q => rw [hr] at h; exact absurd (changePermissions_current_path s p q) h
  | usage text => rw [hr] at h; exact absurd rfl h
  | unknown c => rw [hr] at h; exact absurd rfl h

/-- Witness for C4: in the small world the line `cd d` moves the cursor, and it is a `cd`
whose target exists and is a directory. -/
theorem C4_cursor_moves_only_by_cd_witness :
    (dispatch modelRegex exampleState "cd d").current_path ≠ exampleState.current_path ∧
    ∃ arg more, tokens "cd d" = "cd" :: arg :: more ∧
      ((arg = ".." ∧ has_parent_path exampleState.current_path = true ∧
          pathEq exampleState.current_path (root_path exampleState.current_path) = false) ∨
       (arg ≠ ".." ∧
          fs.path_exists exampleState.world (new_path exampleState.current_path arg) = true ∧
          fs.is_directory exampleState.world (new_path exampleState.current_path arg) = true)) :=
  ⟨by decide, C4_cursor_moves_only_by_cd modelRegex exampleState "cd d" (by decide)⟩

/-! ## C5: entering a child directory and going back -/

theorem wf_entry (w : World) (hwf : w.wf = true) (k : Key) (hk : k ∈ w.entries.map Prod.fst) :
    k.all validName = true ∧ w.isDir k.dropLast = true := by
  unfold World.wf at hwf
  simp only [Bool.and_eq_true, List.all_eq_true] at hwf
  obtain ⟨e, he, rfl⟩ := List.mem_map.mp hk
  have h := hwf.2 e he
  exact ⟨List.all_eq_true.mpr h.1.2, h.2⟩

theorem validName_chars (n : String) (h : validName n = true) :
    n.data ≠ [] ∧ ∀ c ∈ n.data, c ≠ '/' := by
  unfold validName at h
  simp only [Bool.and_eq_true, bne_iff_ne, ne_eq, List.all_eq_true] at h
  refine ⟨?_, h.2⟩
  intro hd
  apply h.1.1.1
  cases n
  simp only at hd
  subst hd
  rfl

theorem splitSlash_has_field (l : List Char) (h : ∃ c ∈ l, c ≠ '/') :
    ∃ f ∈ splitSlash l, f ≠ [] := by
  induction l with
  | nil =>
    obtain ⟨c, hc, _⟩ := h
    cases hc
  | cons c cs ih =>
    by_cases hc : c = '/'
    · have hex : ∃ x ∈ cs, x ≠ '/' := by
        obtain ⟨x, hx, hxs⟩ := h
        rcases List.mem_cons.mp hx with rfl | hx'
        · exact absurd hc hxs
        · exact ⟨x, hx', hxs⟩
      obtain ⟨f, hf, hfn⟩ := ih hex
      refine ⟨f, ?_, hfn⟩
      simp only [splitSlash, hc, if_true]
      exact List.mem_cons_of_mem _ hf
    · simp only [splitSlash, hc, if_false]
      cases splitSlash cs with
      | nil => exact ⟨[c], by simp, by simp⟩
      | cons hd tl => exact ⟨c :: hd, by simp, by simp⟩

theorem elems_ne_nil (p : String) (h : has_relative_path p = true) : elems p ≠ [] := by
  unfold has_relative_path at h
  rw [List.any_eq_true] at h
  obtain ⟨c, hc, hcs⟩ := h
  obtain ⟨f, hf, hfn⟩ := splitSlash_has_field p.data ⟨c, hc, by simpa using hcs⟩
  have hmem : String.mk f ∈ (components p).filter (fun c => c != "") := by
    rw [List.mem_filter]
    refine ⟨List.mem_map_of_mem _ hf, ?_⟩
    simp only [bne_iff_ne, ne_eq]
    intro hs
    apply hfn
    have := congrArg String.data hs
    simpa using this
  unfold elems
  simp only
  split
  · intro hnil
    simp at hnil
  · exact List.ne_nil_of_mem hmem

/-- A pathname with something after the root directory differs from its `root_path`. -/
theorem pathEq_root_path_of_relative (p : String) (h : has_relative_path p = true) :
    pathEq p (root_path p) = false := by
  have hne := elems_ne_nil p h
  unfold pathEq root_path
  by_cases ha : is_absolute p = true
  · have he : elems "/" = [] := by decide
    simp [ha, he, hne]
  · have he : elems "" = [] := by decide
    simp [ha, he, hne]

theorem new_path_eq_pathAppend (c p : String) : new_path c p = pathAppend c p := by
  unfold new_path pathAppend
  split <;> rfl

/-- Everything `showPermissions` prints for an existing target. -/
theorem showPermissions_out (s : State) (p : String)
    (hex : fs.path_exists s.world (pathAppend s.current_path p) = true) :
    (showPermissions s p).out =
      s.out ++ ("\nPermissions for: " ++ showPath (pathAppend s.current_path p) ++ "\n") ::
        [dashes 50 ++ "\n", "Owner (User): ",
         permChar (fs.status_permissions s.world (pathAppend s.current_path p))
           fs.perms.owner_read "r",
         permChar (fs.status_permissions s.world (pathAppend s.current_path p))
           fs.perms.owner_write "w",
         permChar (fs.status_permissions s.world (pathAppend s.current_path p))
           fs.perms.owner_exec "x" ++ "\n",
         "Group:        ",
         permChar (fs.status_permissions s.world (pathAppend s.current_path p))
           fs.perms.group_read "r",
         permChar (fs.status_permissions s.world (pathAppend s.current_path p))
           fs.perms.group_write "w",
         permChar (fs.status_permissions s.world (pathAppend s.current_path p))
           fs.perms.group_exec "x" ++ "\n",
         "Other:        ",
         permChar (fs.status_permissions s.world (pathAppend s.current_path p))
           fs.perms.others_read "r",
         permChar (fs.status_permissions s.world (pathAppend s.current_path p))
           fs.perms.others_write "w",
         permChar (fs.status_permissions s.world (pathAppend s.current_path p))
           fs.perms.others_exec "x" ++ "\n",
         dashes 50 ++ "\n",
         (if fs.is_directory s.world (pathAppend s.current_path p) then "Type: Directory\n"
          else "Type: File\n"),
         "\n"] := by
  simp only [showPermissions, hex]
  by_cases hd : fs.is_directory s.world (pathAppend s.current_path p) = true <;>
    simp [hd, State.print]

/-- C6: for every cursor and arguments, `createFile`, `createDirectory`, `copyFile`,
`moveFile`, `deleteFile`, `showPermissions` and `changePermissions` do all their work at
the `new_path` of `changeDirectory` (the argument itself when it is absolute, otherwise
the cursor joined with it), which is their own `current_path / p`: the existence test,
the kind test, the library call with its effect on the world, the permission bits read
and the pathname printed are all taken at that pathname, and nothing else happens. -/
theorem C6_handlers_use_cd_resolution (s : State) (p q : String) :
    pathAppend s.current_path p = new_path s.current_path p ∧
    createFile s p =
      (if fs.path_exists s.world (new_path s.current_path p) = true then
        s.print ("Error: File '" ++ p ++ "' already exists\n")
      else
        (s.issue (FsCall.ofstream (new_path s.current_path p))
          (fs.ofstream_open s.world (new_path s.current_path p)).1).print
          ("File created: " ++ showPath (new_path s.current_path p) ++ "\n")) ∧
    createDirectory s p =
      (if fs.path_exists s.world (new_path s.current_path p) = true then
        s.print ("Error: Directory '" ++ p ++ "' already exists\n")
      else
        (s.issue (FsCall.create_directory (new_path s.current_path p))
          (fs.create_directory s.world (new_path s.current_path p)).1).print
          (match (fs.create_directory s.world (new_path s.current_path p)).2 with
           | Except.ok true => "Directory created: " ++ showPath (new_path s.current_path p) ++ "\n"
           | Except.ok false => "Failed to create directory\n"
           | Except.error what => "Error creating directory: " ++ what ++ "\n")) ∧
    copyFile s p q =
      (if fs.path_exists s.world (new_path s.current_path p) = false then
        s.print ("Error: Source '" ++ p ++ "' not found\n")
      else if fs.path_exists s.world (new_path s.current_path q) = true then
        s.print ("Error: Destination '" ++ q ++ "' already exists\n")
      else
        (s.issue
          (FsCall.copy (new_path s.current_path p) (new_path s.current_path q)
            (fs.copy_options.recursive ||| fs.copy_options.overwrite_existing))
          (fs.copy s.world (new_path s.current_path p) (new_path s.current_path q)
            (fs.copy_options.recursive ||| fs.copy_options.overwrite_existing)).1).print
          (match (fs.copy s.world (new_path s.current_path p) (new_path s.current_path q)
              (fs.copy_options.recursive ||| fs.copy_options.overwrite_existing)).2 with
           | Except.ok _ =>
             "Copied: " ++ showPath (new_path s.current_path p) ++ " -> " ++
               showPath (new_path s.current_path q) ++ "\n"
           | Except.error what => "Error copying: " ++ what ++ "\n")) ∧
    moveFile s p q =
      (if fs.path_exists s.world (new_path s.current_path p) = false then
        s.print ("Error: Source '" ++ p ++ "' not found\n")
      else if fs.path_exists s.world (new_path s.current_path q) = true then
        s.print ("Error: Destination '" ++ q ++ "' already exists\n")
      else
        (s.issue (FsCall.rename (new_path s.current_path p) (new_path s.current_path q))
          (fs.rename s.world (new_path s.current_path p) (new_path s.current_path q)).1).print
          (match (fs.rename s.world (new_path s.current_path p) (new_path s.current_path q)).2 with
           | Except.ok _ =>
             "Moved: " ++ showPath (new_path s.current_path p) ++ " -> " ++
               showPath (new_path s.current_path q) ++ "\n"
           | Except.error what => "Error moving: " ++ what ++ "\n")) ∧
    deleteFile s p =
      (if fs.path_exists s.world (new_path s.current_path p) = false then
        s.print ("Error: '" ++ p ++ "' not found\n")
      else if fs.is_directory s.world (new_path s.current_path p) = true then
        (s.issue (FsCall.remove_all (new_path s.current_path p))
          (fs.remove_all s.world (new_path s.current_path p)).1).print
          (match (fs.remove_all s.world (new_path s.current_path p)).2 with
           | Except.ok count =>
             "Directory deleted: " ++ showPath (new_path s.current_path p) ++ " (" ++
               toString count ++ " items removed)\n"
           | Except.error what => "Error deleting: " ++ what ++ "\n")
      else
        (s.issue (FsCall.remove (new_path s.current_path p))
          (fs.remove s.world (new_path s.current_path p)).1).print
          (match (fs.remove s.world (new_path s.current_path p)).2 with
           | Except.ok _ => "File deleted: " ++ showPath (new_path s.current_path p) ++ "\n"
           | Except.error what => "Error deleting: " ++ what ++ "\n")) ∧
    showPermissions s p =
      (if fs.path_exists s.world (new_path s.current_path p) = false then
        s.print ("Error: '" ++ p ++ "' not found\n")
      else
        State.mk s.current_path s.world
          (s.out ++
            ["\nPermissions for: " ++ showPath (new_path s.current_path p) ++ "\n",
             dashes 50 ++ "\n", "Owner (User): ",
             permChar (fs.status_permissions s.world (new_path s.current_path p))
               fs.perms.owner_read "r",
             permChar (fs.status_permissions s.world (new_path s.current_path p))
               fs.perms.owner_write "w",
             permChar (fs.status_permissions s.world (new_path s.current_path p))
               fs.perms.owner_exec "x" ++ "\n",
             "Group:        ",
             permChar (fs.status_permissions s.world (new_path s.current_path p))
               fs.perms.group_read "r",
             permChar (fs.status_permissions s.world (new_path s.current_path p))
               fs.perms.group_write "w",
             permChar (fs.status_permissions s.world (new_path s.current_path p))
               fs.perms.group_exec "x" ++ "\n",
             "Other:        ",
             permChar (fs.status_permissions s.world (new_path s.current_path p))
               fs.perms.others_read "r",
             permChar (fs.status_permissions s.world (new_path s.current_path p))
               fs.perms.others_write "w",
             permChar (fs.status_permissions s.world (new_path s.current_path p))
               fs.perms.others_exec "x" ++ "\n",
             dashes 50 ++ "\n",
             (if fs.is_directory s.world (new_path s.current_path p) = true then
               "Type: Directory\n"
              else "Type: File\n"),
             "\n"])
          s.calls) ∧
    changePermissions s p q =
      (if fs.path_exists s.world (new_path s.current_path p) = false then
        s.print ("Error: '" ++ p ++ "' not found\n")
      else
        match q.data with
        | [c0, c1, c2] =>
          State.mk s.current_path
            (fs.permissions s.world (new_path s.current_path p) (new_perms c0 c1 c2)
              fs.perm_options.replace).1
            (s.out ++
              (match (fs.permissions s.world (new_path s.current_path p) (new_perms c0 c1 c2)
                  fs.perm_options.replace).2 with
               | Except.ok _ =>
                 ["Permissions changed to: " ++ q ++ "\n", "Command completed successfully!\n\n"]
               | Except.error what =>
                 ["Warning: " ++ what ++ "\n",
                  "Note: Windows uses ACLs instead of Unix permissions.\n",
                  "Permissions changed to: " ++ q ++ " (conceptually)\n\n"]))
            (s.calls ++ [FsCall.permissions (new_path s.current_path p) (new_perms c0 c1 c2)
              fs.perm_options.replace])
        | _ => s.print "Error: Use 3-digit format (e.g., 755)\n") := by
  refine ⟨(new_path_eq_pathAppend _ _).symm, ?_, ?_, ?_, ?_, ?_, ?_, ?_⟩
  · simp only [new_path_eq_pathAppend]
    unfold createFile
    by_cases hex : fs.path_exists s.world (pathAppend s.current_path p) = true <;> simp [hex]
  · simp only [new_path_eq_pathAppend]
    unfold createDirectory
    by_cases hex : fs.path_exists s.world (pathAppend s.current_path p) = true
    · simp [hex]
    · simp only [hex, if_false, Bool.false_eq_true]
      rcases h : fs.create_directory s.world (pathAppend s.current_path p) with ⟨w, r⟩
      rcases r with what | b
      · rfl
      · cases b <;> rfl
  · simp only [new_path_eq_pathAppend]
    unfold copyFile
    by_cases hsrc : fs.path_exists s.world (pathAppend s.current_path p) = true
    · by_cases hdst : fs.path_exists s.world (pathAppend s.current_path q) = true
      · simp [hsrc, hdst]
      · simp only [hsrc, hdst, if_false, Bool.false_eq_true, not_true_eq_false, Bool.true_eq_false]
        rcases h : fs.copy s.world (pathAppend s.current_path p) (pathAppend s.current_path q)
          (fs.copy_options.recursive ||| fs.copy_options.overwrite_existing) with ⟨w, r⟩
        rcases r with what | u
        · rfl
        · rfl
    · simp [hsrc]
  · simp only [new_path_eq_pathAppend]
    unfold moveFile
    by_cases hsrc : fs.path_exists s.world (pathAppend s.current_path p) = true
    · by_cases hdst : fs.path_exists s.world (pathAppend s.current_path q) = true
      · simp [hsrc, hdst]
      · simp only [hsrc, hdst, if_false, Bool.false_eq_true, not_true_eq_false, Bool.true_eq_false]
        rcases h : fs.rename s.world (pathAppend s.current_path p) (pathAppend s.current_path q)
          with ⟨w, r⟩
        rcases r with what | u
        · rfl
        · rfl
    · simp [hsrc]
  · simp only [new_path_eq_pathAppend]
    unfold deleteFile
    by_cases hex : fs.path_exists s.world (pathAppend s.current_path p) = true
    · by_cases hd : fs.is_directory s.world (pathAppend s.current_path p) = true
      · simp only [hex, hd, if_true, not_true_eq_false, if_false, Bool.true_eq_false]
        rcases h : fs.remove_all s.world (pathAppend s.current_path p) with ⟨w, r⟩
        rcases r with what | n
        · rfl
        · rfl
      · simp only [hex, hd, if_false, not_true_eq_false, Bool.true_eq_false, Bool.false_eq_true]
        rcases h : fs.remove s.world (pathAppend s.current_path p) with ⟨w, r⟩
        rcases r with what | b
        · rfl
        · rfl
    · simp [hex]
  · simp only [new_path_eq_pathAppend]
    unfold showPermissions
    by_cases hex : fs.path_exists s.world (pathAppend s.current_path p) = true
    · by_cases hd : fs.is_directory s.world (pathAppend s.current_path p) = true <;>
        simp [hex, hd, State.print]
    · simp [hex]
  · simp only [new_path_eq_pathAppend]
    unfold changePermissions
    by_cases hex : fs.path_exists s.world (pathAppend s.current_path p) = true
    · simp only [hex, not_true_eq_false, if_false, Bool.true_eq_false]
      split
      · rename_i c0 c1 c2 hq
        rcases h : fs.permissions s.world (pathAppend s.current_path p) (new_perms c0 c1 c2)
          fs.perm_options.replace with ⟨w, r⟩
        rcases r with what | u
        · simp [State.issue, State.print]
        · simp [State.issue, State.print]
      · rfl
    · simp [hex]

/-- An instance of C6 with an absolute argument: with the cursor in `/a/d`, `createFile`
with the argument `/a/g` creates `/a/g`, not a file below the cursor. -/
theorem createFile_absolute_argument :
    (createFile { exampleState with current_path := "/a/d" } "/a/g").calls =
      [FsCall.ofstream "/a/g"] ∧
    (createFile { exampleState with current_path := "/a/d" } "/a/g").world.lookup ["a", "g"] =
      some (Node.file fs.newFilePerms []) ∧
    (createFile { exampleState with current_path := "/a/d" } "/a/g").world.lookup
      ["a", "d", "g"] = none := by
  decide

/-! ## C7: commands given too few arguments -/

theorem extract_of_tokensFuel_cons (l : List Char) (word : String) (args : List String)
    (h : tokensFuel l.length l = word :: args) :
    ∃ rest, extract l = some (word, rest) ∧ tokensFuel rest.length rest = args := by
  cases he : extract l with
  | none =>
    rw [tokensFuel_of_extract_none l he] at h
    cases h
  | some r =>
    obtain ⟨w, rest⟩ := r
    rw [tokensFuel_of_extract l w rest he] at h
    simp only [List.cons.injEq] at h
    exact ⟨rest, by rw [h.1], h.2⟩

theorem extract_none_of_no_token (l : List Char) (h : (tokensFuel l.length l).length < 1) :
    extract l = none := by
  cases he : extract l with
  | none => rfl
  | some r =>
    obtain ⟨w, rest⟩ := r
    rw [tokensFuel_of_extract l w rest he] at h
    simp at h

theorem extract2_none_of_few_tokens (l : List Char) (h : (tokensFuel l.length l).length < 2) :
    extract2 l = none := by
  unfold extract2
  cases he : extract l with
  | none => rfl
  | some r =>
    obtain ⟨w, rest⟩ := r
    rw [tokensFuel_of_extract l w rest he] at h
    simp only [List.length_cons] at h
    have h2 := extract_none_of_no_token rest (by omega)
    simp only [h2]

/-- C7: when the first word of an input line is a command of the command table and fewer
words follow it than the command requires, `main` selects no handler but the usage
message of that command, and dispatching the line only appends that message to the
output: the world, the cursor and the record of library calls are unchanged. -/
theorem C7_too_few_arguments (regex : RegexLib) (s : State) (input kw : String)
    (args : List String) (arity : Nat) (text : List String)
    (htab : (kw, arity, text) ∈ commandTable)
    (htok : tokens input = kw :: args) (hfew : args.length < arity) :
    route input = Action.usage text ∧
    dispatch regex s input = { s with out := s.out ++ text } := by
  obtain ⟨rest, hex, hargs⟩ := extract_of_tokensFuel_cons input.data kw args htok
  have hne : input ≠ "" := by
    intro h
    subst h
    cases hex
  have hroute : route input = choose kw rest := by
    simp only [route, hne, if_false, hex]
  have hchoose : choose kw rest = Action.usage text := by
    simp only [commandTable, List.mem_cons, Prod.mk.injEq, List.mem_singleton,
      List.not_mem_nil, or_false] at htab
    rcases htab with h | h | h | h | h | h | h | h | h <;> obtain ⟨rfl, rfl, rfl⟩ := h
    · simp [choose, extract_none_of_no_token rest (by rw [hargs]; exact hfew)]
    · simp [choose, extract_none_of_no_token rest (by rw [hargs]; exact hfew)]
    · simp [choose, extract_none_of_no_token rest (by rw [hargs]; exact hfew)]
    · simp [choose, extract_none_of_no_token rest (by rw [hargs]; exact hfew)]
    · simp [choose, extract_none_of_no_token rest (by rw [hargs]; exact hfew)]
    · simp [choose, extract_none_of_no_token rest (by rw [hargs]; exact hfew)]
    · simp [choose, extract2_none_of_few_tokens rest (by rw [hargs]; exact hfew)]
    · simp [choose, extract2_none_of_few_tokens rest (by rw [hargs]; exact hfew)]
    · simp [choose, extract2_none_of_few_tokens rest (by rw [hargs]; exact hfew)]
  refine ⟨by rw [hroute, hchoose], ?_⟩
  unfold dispatch
  rw [hroute, hchoose]
  rfl

/-- Witness for C7: the line `cp a` has one argument where `cp` requires two. -/
theorem C7_too_few_arguments_witness :
    ("cp", 2, ["Usage: cp <source> <destination>\n"]) ∈ commandTable ∧
    tokens "cp a" = ["cp", "a"] ∧
    route "cp a" = Action.usage ["Usage: cp <source> <destination>\n"] ∧
    dispatch modelRegex exampleState "cp a" =
      { exampleState with out := exampleState.out ++ ["Usage: cp <source> <destination>\n"] } :=
  ⟨by decide, by decide,
   C7_too_few_arguments modelRegex exampleState "cp a" "cp" ["a"] 2
     ["Usage: cp <source> <destination>\n"] (by decide) (by decide) (by decide)⟩

/-! ## C8: what `createFile` reports -/

/-- C8 (refuted on the code): in the small world `/a/missing` does not exist, so
`createFile` with the argument `missing/f` finds no object at the resolved pathname, the
stream it constructs fails to open and no file appears; it prints `File created`
all the same.  The sibling `createDirectory` reports the failure for the same kind of
argument. -/
theorem C8_touch_reports_success_without_file :
    fs.path_exists exampleState.world (pathAppend exampleState.current_path "missing/f") = false ∧
    fs.ofstream_open exampleState.world "/a/missing/f" = (exampleState.world, false) ∧
    (createFile exampleState "missing/f").out = ["File created: \"/a/missing/f\"\n"] ∧
    (createFile exampleState "missing/f").world = exampleState.world ∧
    fs.path_exists (createFile exampleState "missing/f").world "/a/missing/f" = false ∧
    (createDirectory exampleState "missing/g").out =
      ["Error creating directory: filesystem error: cannot create directory: " ++
        "No such file or directory [/a/missing/g]\n"] := by
  decide

/-! ## C9: what `findFiles` prints -/

theorem takeWhile_append_of_all (p : Char → Bool) (l1 l2 : List Char)
    (h1 : ∀ c ∈ l1, p c = true) (h2 : l2.takeWhile p = []) :
    (l1 ++ l2).takeWhile p = l1 := by
  induction l1 with
  | nil => simpa using h2
  | cons c cs ih =>
    rw [List.cons_append, List.takeWhile_cons, h1 c (List.mem_cons_self _ _)]
    simp only [if_true, List.cons.injEq, true_and]
    exact ih (fun x hx => h1 x (List.mem_cons_of_mem _ hx))

theorem is_absolute_validName (n : String) (hn : validName n = true) :
    is_absolute n = false := by
  obtain ⟨hne, hns⟩ := validName_chars n hn
  unfold is_absolute
  cases hd : n.data with
  | nil => rfl
  | cons c cs =>
    have : c ≠ '/' := hns c (by rw [hd]; exact List.mem_cons_self _ _)
    simpa using this

/-- Joining a proper file name onto any pathname gives a pathname with that file name. -/
theorem filename_pathAppend (x n : String) (hn : validName n = true) :
    filename (pathAppend x n) = n := by
  obtain ⟨_, hns⟩ := validName_chars n hn
  have hall : ∀ c ∈ n.data.reverse, (c != '/') = true := by
    intro c hc
    have := hns c (List.mem_reverse.mp hc)
    simpa using this
  unfold pathAppend
  rw [is_absolute_validName n hn]
  simp only [Bool.false_eq_true, if_false]
  unfold filename
  by_cases hf : has_filename x = true
  · simp only [hf, if_true, String.data_append, List.reverse_append]
    have hs : ("/" : String).data.reverse = ['/'] := rfl
    rw [hs, takeWhile_append_of_all _ _ _ hall (by simp [List.takeWhile_cons])]
    simp
  · simp only [hf, Bool.false_eq_true, if_false, String.data_append, List.reverse_append]
    have hx : x.data.reverse.takeWhile (fun c => c != '/') = [] := by
      unfold has_filename at hf
      cases hr : x.data.reverse with
      | nil => rfl
      | cons c cs =>
        rw [hr] at hf
        have hc : c = '/' := by simpa using hf
        simp [List.takeWhile_cons, hc]
    rw [takeWhile_append_of_all _ _ _ hall hx]
    simp

theorem filename_entryPath (p : String) (front : List String) (n : String)
    (hn : validName n = true) : filename (fs.entryPath p (front ++ [n])) = n := by
  unfold fs.entryPath
  rw [List.foldl_append]
  exact filename_pathAppend _ n hn

/-- For an object below a location, the file name of the pathname the iterator yields is
the last name of the object. -/
theorem filename_of_descendant (w : World) (hwf : w.wf = true) (k : Key) (p : String)
    (e : Key × Node) (he : e ∈ w.descendants k) :
    filename (fs.entryPath p (e.1.drop k.length)) = lastName e.1 := by
  unfold World.descendants at he
  rw [List.mem_filter] at he
  obtain ⟨hmem, hb⟩ := he
  unfold below at hb
  simp only [Bool.and_eq_true, decide_eq_true_eq] at hb
  have hv := (wf_entry w hwf e.1 (List.mem_map_of_mem _ hmem)).1
  rcases List.eq_nil_or_concat e.1 with h | ⟨front, n, hfn⟩
  · rw [h] at hb
    simp at hb
  · rw [List.concat_eq_append] at hfn
    have hn : validName n = true := by
      rw [List.all_eq_true] at hv
      exact hv n (by rw [hfn]; simp)
    have hlen : k.length ≤ front.length := by
      have := hb.2
      rw [hfn] at this
      simp at this
      omega
    rw [hfn, List.drop_append_of_le_length hlen, filename_entryPath _ _ _ hn]
    simp [lastName]

theorem wrapInt_succ (c : Int) (h0 : 0 ≤ c) (h1 : c + 1 < 2 ^ 31) : wrapInt (c + 1) = c + 1 := by
  unfold wrapInt
  have h2 : (c + 1 + 2 ^ 31) % 2 ^ 32 = c + 1 + 2 ^ 31 := by
    apply Int.emod_eq_of_lt <;> omega
  omega

theorem foldl_findStep (search : String → Bool) (entries : List fs.directory_entry) :
    ∀ (st : State) (c : Int), 0 ≤ c → c + entries.length < 2 ^ 31 →
      entries.foldl (findStep search) (st, c) =
        (State.mk st.current_path st.world
            (st.out ++ (entries.filter (fun e => search (filename e.path))).map
              (fun e => showPath e.path ++ "\n"))
            st.calls,
          c + ((entries.filter (fun e => search (filename e.path))).length : Int)) := by
  induction entries with
  | nil => intro st c _ _; simp
  | cons e es ih =>
    intro st c h0 h1
    simp only [List.length_cons, Nat.cast_add, Nat.cast_one] at h1
    rw [List.foldl_cons]
    by_cases hs : search (filename e.path) = true
    · have hstep : findStep search (st, c) e = (st.print (showPath e.path ++ "\n"), c + 1) := by
        simp only [findStep, hs, if_true]
        rw [wrapInt_succ c h0 (by omega)]
      rw [hstep, ih _ _ (by omega) (by omega)]
      simp only [List.filter_cons, hs, if_true, List.map_cons, List.length_cons, State.print,
        List.append_assoc, List.singleton_append, Nat.cast_add, Nat.cast_one]
      congr 1
      omega
    · have hstep : findStep search (st, c) e = (st, c) := by
        simp only [findStep, hs, Bool.false_eq_true, if_false]
      rw [hstep, ih _ _ h0 (by omega)]
      simp only [List.filter_cons, hs, Bool.false_eq_true, if_false]

/-! ## The matcher computes the declarative meaning of a pattern -/

theorem mem_splitsFrom (rest : List Char) :
    ∀ (pre p q : List Char),
      (p, q) ∈ splitsFrom pre rest ↔ ∃ a, rest = a ++ q ∧ p = pre ++ a := by
  induction rest with
  | nil =>
    intro pre p q
    simp only [splitsFrom, List.mem_singleton, Prod.mk.injEq]
    constructor
    · rintro ⟨rfl, rfl⟩
      exact ⟨[], rfl, by simp⟩
    · rintro ⟨a, ha, rfl⟩
      have h := List.append_eq_nil.mp ha.symm
      rw [h.1, h.2]
      simp
  | cons c cs ih =>
    intro pre p q
    simp only [splitsFrom, List.mem_cons, Prod.mk.injEq, ih]
    constructor
    · rintro (⟨rfl, rfl⟩ | ⟨a, ha, rfl⟩)
      · exact ⟨[], rfl, by simp⟩
      · exact ⟨c :: a, by rw [ha]; rfl, by simp⟩
    · rintro ⟨a, ha, rfl⟩
      cases a with
      | nil =>
        left
        exact ⟨by simp, by simpa using ha.symm⟩
      | cons x xs =>
        right
        simp only [List.cons_append, List.cons.injEq] at ha
        refine ⟨xs, ha.2, ?_⟩
        rw [ha.1]
        simp

theorem starLoop_mono (step : List Char → List Char → List (List Char × List Char)) (m : Nat) :
    ∀ (n : Nat) (pre rest : List Char) (x : List Char × List Char), m ≤ n →
      x ∈ starLoop step m pre rest → x ∈ starLoop step n pre rest := by
  induction m with
  | zero =>
    intro n pre rest x _ hx
    simp only [starLoop, List.mem_singleton] at hx
    subst hx
    cases n <;> simp [starLoop]
  | succ m ih =>
    intro n pre rest x hmn hx
    cases n with
    | zero => omega
    | succ n =>
      simp only [starLoop, List.mem_cons, List.mem_flatMap, List.mem_filter] at hx ⊢
      rcases hx with rfl | ⟨y, hy, hxy⟩
      · exact Or.inl rfl
      · exact Or.inr ⟨y, hy, ih n y.1 y.2 x (by omega) hxy⟩

theorem starLoop_sound (icase : Bool) (r : Rx)
    (step : List Char → List Char → List (List Char × List Char))
    (hstep : ∀ pre rest p q, (p, q) ∈ step pre rest →
      ∃ u, rest = u ++ q ∧ p = pre ++ u ∧ Matches icase r pre u q)
    (fuel : Nat) :
    ∀ pre rest p q, (p, q) ∈ starLoop step fuel pre rest →
      ∃ u, rest = u ++ q ∧ p = pre ++ u ∧ Matches icase (Rx.star r) pre u q := by
  induction fuel with
  | zero =>
    intro pre rest p q h
    simp only [starLoop, List.mem_singleton, Prod.mk.injEq] at h
    obtain ⟨rfl, rfl⟩ := h
    exact ⟨[], rfl, by simp, Matches.starNil r _ _⟩
  | succ fuel ih =>
    intro pre rest p q h
    simp only [starLoop, List.mem_cons, Prod.mk.injEq, List.mem_flatMap, List.mem_filter] at h
    rcases h with ⟨rfl, rfl⟩ | ⟨y, ⟨hy, _⟩, hpq⟩
    · exact ⟨[], rfl, by simp, Matches.starNil r _ _⟩
    · obtain ⟨u1, hr1, hp1, hm1⟩ := hstep pre rest y.1 y.2 hy
      obtain ⟨u2, hr2, hp2, hm2⟩ := ih y.1 y.2 p q hpq
      refine ⟨u1 ++ u2, ?_, ?_, ?_⟩
      · rw [hr1, hr2, List.append_assoc]
      · rw [hp2, hp1, List.append_assoc]
      · rw [hr2] at hm1
        rw [hp1] at hm2
        exact Matches.starCons r pre u1 u2 q hm1 hm2

theorem run_sound (icase : Bool) (r : Rx) :
    ∀ pre rest p q, (p, q) ∈ run icase r pre rest →
      ∃ u, rest = u ++ q ∧ p = pre ++ u ∧ Matches icase r pre u q := by
  induction r with
  | empty =>
    intro pre rest p q h
    simp only [run, List.mem_singleton, Prod.mk.injEq] at h
    obtain ⟨rfl, rfl⟩ := h
    exact ⟨[], rfl, by simp, Matches.empty _ _⟩
  | atom a =>
    intro pre rest p q h
    cases rest with
    | nil => simp [run] at h
    | cons c cs =>
      simp only [run] at h
      split at h
      · rename_i hacc
        simp only [List.mem_singleton, Prod.mk.injEq] at h
        obtain ⟨rfl, rfl⟩ := h
        exact ⟨[c], rfl, rfl, Matches.atom a c _ _ hacc⟩
      · simp at h
  | bol =>
    intro pre rest p q h
    simp only [run] at h
    split at h
    · rename_i hpre
      simp only [List.mem_singleton, Prod.mk.injEq] at h
      obtain ⟨rfl, rfl⟩ := h
      subst hpre
      exact ⟨[], rfl, rfl, Matches.bol _⟩
    · simp at h
  | eol =>
    intro pre rest p q h
    simp only [run] at h
    split at h
    · rename_i hrest
      simp only [List.mem_singleton, Prod.mk.injEq] at h
      obtain ⟨rfl, rfl⟩ := h
      subst hrest
      exact ⟨[], rfl, by simp, Matches.eol _⟩
    · simp at h
  | seq r1 r2 ih1 ih2 =>
    intro pre rest p q h
    simp only [run, List.mem_flatMap] at h
    obtain ⟨y, hy, hpq⟩ := h
    obtain ⟨u1, hr1, hp1, hm1⟩ := ih1 pre rest y.1 y.2 hy
    obtain ⟨u2, hr2, hp2, hm2⟩ := ih2 y.1 y.2 p q hpq
    refine ⟨u1 ++ u2, ?_, ?_, ?_⟩
    · rw [hr1, hr2, List.append_assoc]
    · rw [hp2, hp1, List.append_assoc]
    · rw [hr2] at hm1
      rw [hp1] at hm2
      exact Matches.seq r1 r2 pre u1 u2 q hm1 hm2
  | alt r1 r2 ih1 ih2 =>
    intro pre rest p q h
    simp only [run, List.mem_append] at h
    rcases h with h | h
    · obtain ⟨u, hr, hp, hm⟩ := ih1 pre rest p q h
      exact ⟨u, hr, hp, Matches.altLeft r1 r2 pre u q hm⟩
    · obtain ⟨u, hr, hp, hm⟩ := ih2 pre rest p q h
      exact ⟨u, hr, hp, Matches.altRight r1 r2 pre u q hm⟩
  | star r ih =>
    intro pre rest p q h
    simp only [run] at h
    exact starLoop_sound icase r _ ih rest.length pre rest p q h

theorem run_complete (icase : Bool) (r : Rx) (pre u post : List Char)
    (h : Matches icase r pre u post) : (pre ++ u, post) ∈ run icase r pre (u ++ post) := by
  induction h with
  | empty pre post => simp [run]
  | atom a c pre post hacc => simp [run, hacc]
  | bol post => simp [run]
  | eol pre => simp [run]
  | seq r1 r2 pre u1 u2 post _ _ ih1 ih2 =>
    simp only [run, List.mem_flatMap]
    refine ⟨(pre ++ u1, u2 ++ post), ?_, ?_⟩
    · simpa [List.append_assoc] using ih1
    · simpa [List.append_assoc] using ih2
  | altLeft r1 r2 pre u post _ ih =>
    simp only [run, List.mem_append]
    exact Or.inl ih
  | altRight r1 r2 pre u post _ ih =>
    simp only [run, List.mem_append]
    exact Or.inr ih
  | starNil r pre post =>
    simp only [run, List.nil_append, List.append_nil]
    cases post <;> simp [starLoop]
  | starCons r pre u1 u2 post _ _ ih1 ih2 =>
    simp only [run] at ih2 ⊢
    cases u1 with
    | nil => simpa using ih2
    | cons c cs =>
      have hlen : ((c :: cs) ++ u2 ++ post).length = (cs ++ u2 ++ post).length + 1 := by simp
      rw [hlen]
      simp only [starLoop, List.mem_cons, List.mem_flatMap, List.mem_filter]
      right
      refine ⟨(pre ++ c :: cs, u2 ++ post), ⟨?_, ?_⟩, ?_⟩
      · simpa [List.append_assoc] using ih1
      · simp
        omega
      · have hmono := starLoop_mono (fun p q => run icase r p q) (u2 ++ post).length
          (cs ++ u2 ++ post).length (pre ++ c :: cs) (u2 ++ post) _ (by simp) ih2
        simpa [List.append_assoc] using hmono

/-- The search finds a match exactly when the text contains one. -/
theorem searchRef_iff (icase : Bool) (r : Rx) (text : List Char) :
    searchRef icase r text = true ↔ ContainsMatch icase r text := by
  unfold searchRef ContainsMatch
  rw [List.any_eq_true]
  constructor
  · rintro ⟨⟨p, q⟩, hmem, hne⟩
    obtain ⟨a, ha, hp⟩ := (mem_splitsFrom text [] p q).mp hmem
    cases hrun : run icase r p q with
    | nil => simp [hrun] at hne
    | cons y ys =>
      have hy : (y.1, y.2) ∈ run icase r p q := by rw [hrun]; simp
      obtain ⟨u, hq, _, hm⟩ := run_sound icase r p q y.1 y.2 hy
      refine ⟨p, u, y.2, ?_, hm⟩
      rw [ha, hq, hp]
      simp
  · rintro ⟨pre, u, post, htext, hm⟩
    refine ⟨(pre, u ++ post), ?_, ?_⟩
    · rw [mem_splitsFrom]
      exact ⟨pre, by rw [htext, List.append_assoc], by simp⟩
    · have := run_complete icase r pre u post hm
      cases hrun : run icase r pre (u ++ post) with
      | nil => rw [hrun] at this; cases this
      | cons y ys => simp

/-- C9: in a well-formed world whose cursor names a directory holding fewer than 2^31
objects, for every pattern the library compiles with the flag `icase`, `findFiles`
prints the heading, then the pathname of exactly those objects below the cursor (at
any depth) in whose file name (the last name alone) `regex_search` finds a match, then
the count of the pathnames printed.  When the pattern belongs to the modelled grammar
and the library implements its case-insensitive meaning, the objects printed are
exactly those whose file name contains a piece that matches the pattern without regard
to case. -/
theorem C9_find_prints_matching_names (lib : RegexLib) (s : State) (pattern : String)
    (re : lib.regex) (k : Key)
    (hre : lib.basic_regex pattern regex_constants.icase = Except.ok re)
    (hwf : s.world.wf = true)
    (hcur : s.world.resolve s.current_path = some k) (hdir : s.world.isDir k = true)
    (hsize : (s.world.descendants k).length < 2 ^ 31) :
    (findFiles lib s pattern).out =
      s.out ++
        ["\n=== Search results for pattern: '" ++ pattern ++ "' ===\n", dashes 80 ++ "\n"] ++
        ((s.world.descendants k).filter (fun e => lib.regex_search (lastName e.1) re)).map
          (fun e => showPath (fs.entryPath s.current_path (e.1.drop k.length)) ++ "\n") ++
        [dashes 80 ++ "\n",
         "Found: " ++
           toString (((s.world.descendants k).filter
             (fun e => lib.regex_search (lastName e.1) re)).length : Int)
           ++ " match(es)\n\n"] ∧
    (∀ r : Rx, parsePattern pattern = some r →
      (∀ text : String, lib.regex_search text re = true ↔ ContainsMatch true r text.data) →
      ∃ printed : List (Key × Node),
        (∀ e, e ∈ printed ↔
          e ∈ s.world.descendants k ∧ ContainsMatch true r (lastName e.1).data) ∧
        printed =
          (s.world.descendants k).filter (fun e => searchRef true r (lastName e.1).data) ∧
        (findFiles lib s pattern).out =
          s.out ++
            ["\n=== Search results for pattern: '" ++ pattern ++ "' ===\n", dashes 80 ++ "\n"] ++
            printed.map
              (fun e => showPath (fs.entryPath s.current_path (e.1.drop k.length)) ++ "\n") ++
            [dashes 80 ++ "\n",
             "Found: " ++ toString (printed.length : Int) ++ " match(es)\n\n"]) := by
  have hiter : fs.recursive_directory_iterator s.world s.current_path =
      Except.ok ((s.world.descendants k).map
        (fun e => ⟨fs.entryPath s.current_path (e.1.drop k.length), e.2⟩)) := by
    simp [fs.recursive_directory_iterator, hcur, hdir]
  have hfilter : ((s.world.descendants k).map
        (fun e => (⟨fs.entryPath s.current_path (e.1.drop k.length), e.2⟩ : fs.directory_entry))).filter
        (fun e => lib.regex_search (filename e.path) re) =
      ((s.world.descendants k).filter (fun e => lib.regex_search (lastName e.1) re)).map
        (fun e => ⟨fs.entryPath s.current_path (e.1.drop k.length), e.2⟩) := by
    rw [List.filter_map]
    congr 1
    apply List.filter_congr
    intro e he
    simp only [Function.comp]
    rw [filename_of_descendant s.world hwf k s.current_path e he]
  have hlen : (0 : Int) + (((s.world.descendants k).map
        (fun e => (⟨fs.entryPath s.current_path (e.1.drop k.length), e.2⟩ : fs.directory_entry))).length
          : Nat) < 2 ^ 31 := by
    rw [List.length_map]
    have : ((s.world.descendants k).length : Int) < 2 ^ 31 := by exact_mod_cast hsize
    omega
  have hout : (findFiles lib s pattern).out =
      s.out ++
        ["\n=== Search results for pattern: '" ++ pattern ++ "' ===\n", dashes 80 ++ "\n"] ++
        ((s.world.descendants k).filter (fun e => lib.regex_search (lastName e.1) re)).map
          (fun e => showPath (fs.entryPath s.current_path (e.1.drop k.length)) ++ "\n") ++
        [dashes 80 ++ "\n",
         "Found: " ++
           toString (((s.world.descendants k).filter
             (fun e => lib.regex_search (lastName e.1) re)).length : Int)
           ++ " match(es)\n\n"] := by
    simp only [findFiles, hre, hiter, State.print]
    rw [foldl_findStep (fun filename => lib.regex_search filename re) _ _ 0 (le_refl _) hlen,
      hfilter]
    simp [List.map_map, Function.comp]
  refine ⟨hout, ?_⟩
  intro r _ hlib
  have hsame : (s.world.descendants k).filter (fun e => lib.regex_search (lastName e.1) re) =
      (s.world.descendants k).filter (fun e => searchRef true r (lastName e.1).data) := by
    apply List.filter_congr
    intro e _
    rw [Bool.eq_iff_iff, hlib, searchRef_iff]
  refine ⟨_, ?_, rfl, ?_⟩
  · intro e
    rw [List.mem_filter, searchRef_iff]
  · rw [hout, hsame]

/-- Witness for C9, with the library of the modelled grammar: for the files `report.txt`,
`report.csv` and `image.png` and the pattern `report`, exactly the two report pathnames
and the count 2 are printed; for `REPORT.TXT`, `report.csv`, `notes.Txt` and
`image.png` the pattern `report` prints the first two and the pattern for a name ending
in `.txt` prints `REPORT.TXT` and `notes.Txt`. -/
theorem C9_find_prints_matching_names_witness :
    reportState.world.wf = true ∧ mixedCaseState.world.wf = true ∧
    reportState.world.descendants ["work"] =
      [(["work", "report.txt"], Node.file 0o644 []), (["work", "report.csv"], Node.file 0o644 []),
       (["work", "image.png"], Node.file 0o644 [])] ∧
    (findFiles modelRegex reportState "report").out =
      ["\n=== Search results for pattern: 'report' ===\n", dashes 80 ++ "\n",
       "\"/work/report.txt\"\n", "\"/work/report.csv\"\n",
       dashes 80 ++ "\n", "Found: 2 match(es)\n\n"] ∧
    (findFiles modelRegex mixedCaseState "report").out =
      ["\n=== Search results for pattern: 'report' ===\n", dashes 80 ++ "\n",
       "\"/work/REPORT.TXT\"\n", "\"/work/report.csv\"\n",
       dashes 80 ++ "\n", "Found: 2 match(es)\n\n"] ∧
    (findFiles modelRegex mixedCaseState "\\.txt$").out =
      ["\n=== Search results for pattern: '\\.txt$' ===\n", dashes 80 ++ "\n",
       "\"/work/REPORT.TXT\"\n", "\"/work/notes.Txt\"\n",
       dashes 80 ++ "\n", "Found: 2 match(es)\n\n"] ∧
    (∃ printed : List (Key × Node),
      (∀ e, e ∈ printed ↔ e ∈ mixedCaseState.world.descendants ["work"] ∧
        ContainsMatch true
          (Rx.seq (Rx.seq (Rx.seq (Rx.seq (Rx.seq Rx.empty (Rx.atom (Atom.char '.')))
            (Rx.atom (Atom.char 't'))) (Rx.atom (Atom.char 'x'))) (Rx.atom (Atom.char 't')))
            Rx.eol)
          (lastName e.1).data) ∧
      printed =
        [(["work", "REPORT.TXT"], Node.file 0o644 []), (["work", "notes.Txt"], Node.file 0o644 [])]) :=
  ⟨by decide, by decide, by decide,
   (C9_find_prints_matching_names modelRegex reportState "report" (true, _) ["work"] rfl
      (by decide) (by decide) (by decide) (by decide)).1.trans (by decide),
   (C9_find_prints_matching_names modelRegex mixedCaseState "report" (true, _) ["work"] rfl
      (by decide) (by decide) (by decide) (by decide)).1.trans (by decide),
   (C9_find_prints_matching_names modelRegex mixedCaseState "\\.txt$" (true, _) ["work"] rfl
      (by decide) (by decide) (by decide) (by decide)).1.trans (by decide),
   by
    obtain ⟨printed, hmem, hfil, _⟩ :=
      (C9_find_prints_matching_names modelRegex mixedCaseState "\\.txt$" (true, _) ["work"] rfl
        (by decide) (by decide) (by decide) (by decide)).2 _ rfl
        (fun text => searchRef_iff true _ text.data)
    exact ⟨printed, hmem, hfil.trans (by decide)⟩⟩

/-! ## C10: `copyFile` and an existing destination -/

/-- C10 (as amended): when the source exists, `copyFile` with an existing destination only
prints the destination-exists error (no library call, world and cursor unchanged); with
an absent destination it issues exactly one `fs::copy` from the resolved source to the
resolved destination, with the options `recursive | overwrite_existing`. -/
theorem C10_cp_with_existing_source (s : State) (a b : String)
    (hsrc : fs.path_exists s.world (pathAppend s.current_path a) = true) :
    (fs.path_exists s.world (pathAppend s.current_path b) = true →
      copyFile s a b = s.print ("Error: Destination '" ++ b ++ "' already exists\n")) ∧
    (fs.path_exists s.world (pathAppend s.current_path b) = false →
      (copyFile s a b).calls = s.calls ++
        [FsCall.copy (pathAppend s.current_path a) (pathAppend s.current_path b)
          (fs.copy_options.recursive ||| fs.copy_options.overwrite_existing)]) := by
  constructor
  · intro hdst
    simp [copyFile, hsrc, hdst]
  · intro hdst
    unfold copyFile
    simp only [hsrc, hdst, not_true_eq_false, if_false, Bool.false_eq_true]
    split <;> rfl

/-- Witness for C10 as amended: in the small world `cp f d` is refused because `d` exists,
and `cp f g` requests the copy with both options. -/
theorem C10_cp_with_existing_source_witness :
    fs.path_exists exampleState.world (pathAppend exampleState.current_path "f") = true ∧
    copyFile exampleState "f" "d" =
      exampleState.print "Error: Destination 'd' already exists\n" ∧
    (copyFile exampleState "f" "g").calls = [FsCall.copy "/a/f" "/a/g" 10] :=
  ⟨by decide,
   (C10_cp_with_existing_source exampleState "f" "d" (by decide)).1 (by decide),
   (C10_cp_with_existing_source exampleState "f" "g" (by decide)).2 (by decide)⟩

/-- C10 (refuted as stated): the copy that `copyFile` requests for an absent destination
has the option `overwrite_existing` set, so overwriting is not disabled; and with an
existing destination but a missing source the report is source-not-found, not
destination-exists. -/
theorem C10_cp_counterexample :
    fs.path_exists exampleState.world (pathAppend exampleState.current_path "g") = false ∧
    (copyFile exampleState "f" "g").calls =
      [FsCall.copy "/a/f" "/a/g"
        (fs.copy_options.recursive ||| fs.copy_options.overwrite_existing)] ∧
    (fs.copy_options.recursive ||| fs.copy_options.overwrite_existing) &&&
      fs.copy_options.overwrite_existing ≠ 0 ∧
    fs.path_exists exampleState.world (pathAppend exampleState.current_path "f") = true ∧
    (copyFile exampleState "nosuch" "f").out = ["Error: Source 'nosuch' not found\n"] := by
  decide

/-! ## C11: `goParent` at the root and below it -/

theorem is_absolute_of_pathEq_root (c : String) (h : pathEq c "/" = true) :
    is_absolute c = true := by
  unfold pathEq at h
  simp only [Bool.and_eq_true, beq_iff_eq] at h
  rw [h.1]
  decide

theorem has_relative_path_of_parent (c : String) (hp : has_parent_path c = true)
    (ha : is_absolute c = false) : has_relative_path c = true := by
  by_contra hr
  have hr' : has_relative_path c = false := by simpa using hr
  have hpar : parent_path c = c := by
    unfold parent_path
    simp [hr']
  unfold has_parent_path at hp
  rw [hpar] at hp
  have hne : c ≠ "" := by simpa using hp
  apply hne
  cases c with
  | mk data =>
    cases data with
    | nil => rfl
    | cons x xs =>
      exfalso
      unfold is_absolute at ha
      unfold has_relative_path at hr'
      simp only [List.any_cons, Bool.or_eq_false_iff] at hr'
      have hx : x = '/' := by simpa using hr'.1
      simp [hx] at ha

/-- C11: when the cursor equals the filesystem root, `goParent` leaves the state as it is
except for printing the notice `Already at root directory` (no error text, no library
call); when the cursor has a parent path and does not equal the root, `goParent` sets
the cursor to its parent path and prints the new cursor. -/
theorem C11_goParent_at_root_and_below (s : State) :
    (pathEq s.current_path "/" = true →
      goParent s = s.print "Already at root directory\n") ∧
    (has_parent_path s.current_path = true → pathEq s.current_path "/" = false →
      goParent s =
        ({ s with current_path := parent_path s.current_path }).print
          ("Changed to: " ++ showPath (parent_path s.current_path) ++ "\n")) := by
  constructor
  · intro hroot
    have ha := is_absolute_of_pathEq_root _ hroot
    have hr : pathEq s.current_path (root_path s.current_path) = true := by
      simp only [root_path, ha, if_true]
      exact hroot
    simp [goParent, hr]
  · intro hp hnr
    have hr : pathEq s.current_path (root_path s.current_path) = false := by
      by_cases ha : is_absolute s.current_path = true
      · simp only [root_path, ha, if_true]
        exact hnr
      · exact pathEq_root_path_of_relative _
          (has_relative_path_of_parent _ hp (by simpa using ha))
    simp [goParent, hp, hr]

/-- Witness for C11: at `/` the cursor stays and the notice is printed; at `/a` the cursor
becomes `/`. -/
theorem C11_goParent_at_root_and_below_witness :
    pathEq "/" "/" = true ∧
    goParent { exampleState with current_path := "/" } =
      { current_path := "/", world := exampleWorld, out := ["Already at root directory\n"],
        calls := [] } ∧
    has_parent_path exampleState.current_path = true ∧
    pathEq exampleState.current_path "/" = false ∧
    goParent exampleState =
      { current_path := "/", world := exampleWorld, out := ["Changed to: \"/\"\n"],
        calls := [] } :=
  ⟨by decide,
   (C11_goParent_at_root_and_below { exampleState with current_path := "/" }).1 (by decide),
   by decide, by decide,
   (C11_goParent_at_root_and_below exampleState).2 (by decide) (by decide)⟩

end FileExplorer
